import Mathlib

/-!
Verification development for the palila_gui listening-experiment system.

The definitions below are a shallow embedding of the Python sources:
  GUI/file_system.py   (PalilaExperiment: repeat expansion, verification,
                        questionnaire and part preparation; PalilaAnswers)
  GUI/__init__.py      (PalilaScreenManager: screen initialisation, set_pid)
  GUI/questionnaire_screen.py (questionnaire_setup, QuestionnaireScreen,
                        QQuestionManager)
  GUI/questions.py     (QuestionManager, Question: answer changes and the
                        dependency lock/unlock engine)

Python primitives used by that code (str, str.zfill, str.replace, str.split,
int, configobj as_bool, sorted) are embedded as executable Lean functions on
character lists, so that all definitions evaluate inside the kernel.
-/

deriving instance DecidableEq for Except

namespace Palila

/-! ## Python string primitives -/

/-- Decimal digit character for a value below ten. -/
def digitChar : Nat → Char
  | 0 => '0'
  | 1 => '1'
  | 2 => '2'
  | 3 => '3'
  | 4 => '4'
  | 5 => '5'
  | 6 => '6'
  | 7 => '7'
  | 8 => '8'
  | 9 => '9'
  | _ => '*'

/-- Accumulator step of the decimal decoder. -/
def decStep (a : Nat) (c : Char) : Nat := 10 * a + (c.toNat - 48)

/-- Decimal value of a digit list (left fold, most significant first). -/
def decodeDec (l : List Char) : Nat := l.foldl decStep 0

/-- Fuelled digit emitter behind pyStr: emits the decimal digits of n in
front of the accumulator, mirroring repeated divmod by 10. -/
def pyStrAux : Nat → Nat → List Char → List Char
  | 0, _, acc => acc
  | fuel + 1, n, acc =>
    let acc' := digitChar (n % 10) :: acc
    if n < 10 then acc' else pyStrAux fuel (n / 10) acc'

/-- Embedding of Python str(n) for a natural number n. -/
def pyStr (n : Nat) : String := ⟨pyStrAux (n + 1) n []⟩

/-- Embedding of Python str(i) for an integer i. -/
def pyStrInt (i : Int) : String :=
  if i < 0 then "-" ++ pyStr i.natAbs else pyStr i.natAbs

/-- Embedding of Python str.zfill on a character list. -/
def pyZfillL (s : List Char) (w : Nat) : List Char :=
  if w ≤ s.length then s
  else
    match s with
    | [] => List.replicate w '0'
    | c :: rest =>
      if c = '+' ∨ c = '-' then c :: (List.replicate (w - s.length) '0' ++ rest)
      else List.replicate (w - s.length) '0' ++ (c :: rest)

/-- Embedding of Python str.zfill. -/
def pyZfill (s : String) (w : Nat) : String := ⟨pyZfillL s.data w⟩

/-- Embedding of Python str.split(sep) for the one-character separator. -/
def splitCharL (sep : Char) : List Char → List (List Char)
  | [] => [[]]
  | c :: cs =>
    match splitCharL sep cs with
    | [] => [[]]
    | h :: t => if c = sep then [] :: h :: t else (c :: h) :: t

/-- Embedding of Python str.split(sep) producing strings. -/
def pySplit (s : String) (sep : Char) : List String :=
  (splitCharL sep s.data).map (fun l => ⟨l⟩)

/-- Fuelled embedding of Python str.replace on character lists: replaces
non-overlapping occurrences left to right. -/
def pyReplaceAux : Nat → List Char → List Char → List Char → List Char
  | 0, s, _, _ => s
  | fuel + 1, s, p, r =>
    match s with
    | [] => []
    | c :: cs =>
      if p.isPrefixOf (c :: cs) then r ++ pyReplaceAux fuel ((c :: cs).drop p.length) p r
      else c :: pyReplaceAux fuel cs p r

/-- Embedding of Python str.replace. -/
def pyReplace (s p r : String) : String := ⟨pyReplaceAux (s.data.length + 1) s.data p.data r.data⟩

/-- Embedding of the Python substring test (p in s). -/
def containsSubL (p : List Char) : List Char → Bool
  | [] => p.isEmpty
  | c :: cs => p.isPrefixOf (c :: cs) || containsSubL p cs

/-- Embedding of the Python substring test on strings. -/
def pyContains (s p : String) : Bool := containsSubL p.data s.data

/-- Embedding of Python str.isnumeric, restricted to ASCII digits. -/
def pyIsNumeric (s : String) : Bool := !s.data.isEmpty && s.data.all Char.isDigit

/-- Embedding of Python str.startswith for a one-character pattern. -/
def pyStartsWith (s : String) (c : Char) : Bool :=
  match s.data with
  | [] => false
  | c' :: _ => c' = c

/-- Characters of a string after dropping its first character (Python s[1:]). -/
def pyDropOne (s : String) : String :=
  match s.data with
  | [] => ""
  | _ :: rest => ⟨rest⟩

/-- Embedding of Python int(s): optional sign followed by decimal digits;
anything else raises ValueError. -/
def pyInt (s : String) : Except String Int :=
  match s.data with
  | '-' :: ds =>
    if !ds.isEmpty && ds.all Char.isDigit then .ok (-(decodeDec ds : Int))
    else .error ("invalid literal for int: " ++ s)
  | '+' :: ds =>
    if !ds.isEmpty && ds.all Char.isDigit then .ok (decodeDec ds : Int)
    else .error ("invalid literal for int: " ++ s)
  | ds =>
    if !ds.isEmpty && ds.all Char.isDigit then .ok (decodeDec ds : Int)
    else .error ("invalid literal for int: " ++ s)

/-- Lexicographic comparison of character lists by code point, as Python
compares strings. -/
def lexLt : List Char → List Char → Bool
  | [], [] => false
  | [], _ :: _ => true
  | _ :: _, [] => false
  | a :: as', b :: bs => if a = b then lexLt as' bs else decide (a.toNat < b.toNat)

/-- Python string comparison a < b. -/
def pyStrLt (a b : String) : Bool := lexLt a.data b.data

/-- Insertion into an ascending list under pyStrLt. -/
def insertAsc (x : String) : List String → List String
  | [] => [x]
  | y :: ys => if pyStrLt x y then x :: y :: ys else y :: insertAsc x ys

/-- Embedding of Python sorted on a list of strings. -/
def pySorted : List String → List String
  | [] => []
  | x :: xs => insertAsc x (pySorted xs)

/-- Embedding of Python max on a list of strings (empty list gives ""). -/
def pyMax : List String → String
  | [] => ""
  | x :: xs => (pySorted (x :: xs)).getLastD ""

/-- Embedding of configobj Section.as_bool: the accepted truth words. -/
def asBool (s : String) : Except String Bool :=
  let l : String := ⟨s.data.map Char.toLower⟩
  if l = "true" ∨ l = "yes" ∨ l = "on" ∨ l = "1" then .ok true
  else if l = "false" ∨ l = "no" ∨ l = "off" ∨ l = "0" then .ok false
  else .error ("Value is not a boolean: " ++ s)

/-! ## Association-list helpers (Python dict with insertion order) -/

/-- Lookup with a default value. -/
def lookupD (l : List (String × String)) (k d : String) : String :=
  match l with
  | [] => d
  | (k', v) :: rest => if k' = k then v else lookupD rest k d

/-- Boolean flag lookup with a default value. -/
def lookupB (l : List (String × Bool)) (k : String) (d : Bool) : Bool :=
  match l with
  | [] => d
  | (k', v) :: rest => if k' = k then v else lookupB rest k d

/-- Overwrite the value at a key, appending the pair if the key is new
(Python d[k] = v). -/
def setKV (l : List (String × String)) (k v : String) : List (String × String) :=
  match l with
  | [] => [(k, v)]
  | (k', v') :: rest => if k' = k then (k, v) :: rest else (k', v') :: setKV rest k v

/-- Overwrite a boolean flag at a key, appending the pair if the key is new. -/
def setKB (l : List (String × Bool)) (k : String) (v : Bool) : List (String × Bool) :=
  match l with
  | [] => [(k, v)]
  | (k', v') :: rest => if k' = k then (k, v) :: rest else (k', v') :: setKB rest k v

/-- Append a value to the list bucket at a key, creating the bucket if the
key is new (the screen_dict update in _prepare_questionnaire). -/
def pushBucket (l : List (String × List String)) (k v : String) : List (String × List String) :=
  match l with
  | [] => [(k, [v])]
  | (k', vs) :: rest => if k' = k then (k, vs ++ [v]) :: rest else (k', vs) :: pushBucket rest k v

/-- Lookup a bucket by key, defaulting to the empty list. -/
def lookupBucket (l : List (String × List String)) (k : String) : List String :=
  match l with
  | [] => []
  | (k', vs) :: rest => if k' = k then vs else lookupBucket rest k

/-! ## Configuration model

The config tree fed to PalilaExperiment, restricted to the structure the
claims exercise: experiments without the demo screen, without randomise
flags (no shuffle call), without part-level question-overwrite sections and
without the default main questionnaire merge.  Raw values are strings, as
configobj delivers them. -/

/-- One question N section of a questionnaire. -/
structure QuestionCfg where
  name : String
  manualScreen : Option String
deriving DecidableEq, Repr

/-- A questionnaire section: its question sections in declaration order and
the raw manual split value, when present. -/
structure QuestionnaireCfg where
  questions : List QuestionCfg
  manualSplitKey : Option String
deriving DecidableEq, Repr

/-- One audio N section of a part. -/
structure AudioCfg where
  name : String
  filename : Option String
  hasFilename2 : Bool
  maxReplays : Option String
  repeatKey : Option String
  questions : List String
deriving DecidableEq, Repr

/-- An intro section. -/
structure IntroCfg where
  text : Option String
  time : Option String
deriving DecidableEq, Repr

/-- A breaks section. -/
structure BreaksCfg where
  interval : Option String
  time : Option String
  text : Option String
deriving DecidableEq, Repr

/-- One part N section. -/
structure PartCfg where
  name : String
  intro : Option IntroCfg
  breaks : Option BreaksCfg
  audios : List AudioCfg
  questionnaire : Option QuestionnaireCfg
deriving DecidableEq, Repr

/-- The whole experiment config file. -/
structure ExperimentCfg where
  questionnaire : Option QuestionnaireCfg
  parts : List PartCfg
deriving DecidableEq, Repr

/-! ## Repeat expansion (PalilaExperiment.__init__, file_system.py 74-106)

The init loop walks a snapshot of the part sections; an audio with a
repeat key is replaced by repeat deep copies named audio_01, audio_02, ...
and the template section is deleted.  Every key, the repeat key included,
is copied into each copy; copies are not revisited because the loop
iterates the snapshot. -/

/-- The ri-th deep copy created by the repeat expansion: every key of the
template is copied and the name gains the suffix of the one-based index,
zero filled to two digits. -/
def expandCopy (a : AudioCfg) (ri : Nat) : AudioCfg :=
  { a with name := a.name ++ "_" ++ pyZfill (pyStr (ri + 1)) 2 }

/-- Expansion of a single audio section into its list entry or its copies. -/
def expandAudio (a : AudioCfg) : Except String (List AudioCfg) :=
  match a.repeatKey with
  | none => .ok [a]
  | some rs =>
    match pyInt rs with
    | .error e => .error e
    | .ok r => .ok ((List.range r.toNat).map (expandCopy a))

/-- Expansion of the audio list of a part, in declaration order. -/
def expandAudios : List AudioCfg → Except String (List AudioCfg)
  | [] => .ok []
  | a :: rest => do
    let h ← expandAudio a
    let t ← expandAudios rest
    .ok (h ++ t)

/-! ## Verification (PalilaExperiment._verify_part / _verify_experiment) -/

/-- A questionnaire after verification, with the manual split flag resolved
to a boolean (the as_bool conversion stored back into the section). -/
structure VQuestionnaire where
  questions : List QuestionCfg
  manualSplit : Bool
deriving DecidableEq, Repr

/-- A part after verification. -/
structure VPart where
  name : String
  intro : Option IntroCfg
  breaks : Option BreaksCfg
  audios : List AudioCfg
  questionnaire : Option VQuestionnaire
deriving DecidableEq, Repr

/-- An experiment after verification; a missing main questionnaire has been
replaced by an empty one. -/
structure VExperiment where
  questionnaire : VQuestionnaire
  parts : List VPart
deriving DecidableEq, Repr

/-- The manual screen check of _verify_part (file_system.py 165-171) for a
single question: the key must be present, and the value must NOT satisfy
str.isnumeric, otherwise the code raises SyntaxError claiming the value is
not a number. -/
def checkManualScreen (partName : String) (q : QuestionCfg) : Except String Unit :=
  match q.manualScreen with
  | none => .error ("Experiment " ++ partName ++ " questionnaire " ++ q.name ++
      " does not contain manual screen variable.")
  | some v =>
    if pyIsNumeric v then
      .error ("Experiment " ++ partName ++ " questionnaire " ++ q.name ++
        " manual screen is not a number.")
    else .ok ()

/-- The manual screen loop of _verify_part over all questionnaire questions. -/
def checkManualScreens (partName : String) : List QuestionCfg → Except String Unit
  | [] => .ok ()
  | q :: qs => do
    checkManualScreen partName q
    checkManualScreens partName qs

/-- The questionnaire block of _verify_part (file_system.py 160-173). -/
def verifyPartQuestionnaire (partName : String) :
    Option QuestionnaireCfg → Except String (Option VQuestionnaire)
  | none => .ok none
  | some q =>
    match q.manualSplitKey with
    | some key => do
      let b ← asBool key
      if b then do
        checkManualScreens partName q.questions
        .ok (some ⟨q.questions, true⟩)
      else .ok (some ⟨q.questions, false⟩)
    | none => .ok (some ⟨q.questions, false⟩)

/-- The audio checks of _verify_part (file_system.py 175-181): filename key
present and the referenced file on disk (the file system is an oracle). -/
def checkAudioFiles (fileExists : String → Bool) (partName : String) :
    List AudioCfg → Except String Unit
  | [] => .ok ()
  | a :: rest => do
    match a.filename with
    | none => .error ("No filename found for " ++ partName ++ ": " ++ a.name ++ ".")
    | some f =>
      if fileExists f then checkAudioFiles fileExists partName rest
      else .error ("Audio file " ++ f ++ " not found for " ++ partName ++ ": " ++ a.name ++ ".")

/-- Embedding of PalilaExperiment._verify_part (file_system.py 115-181),
applied after repeat expansion as in the source. -/
def verifyPart (fileExists : String → Bool) (p : PartCfg) : Except String VPart := do
  if p.audios.isEmpty ∧ p.intro.isNone ∧ p.breaks.isNone ∧ p.questionnaire.isNone then
    .error ("Empty experiment part (" ++ p.name ++ ") found in input file")
  if p.audios.isEmpty then
    .error ("Experiment " ++ p.name ++ " does not contain any audio questions.")
  match p.intro with
  | none => pure ()
  | some i => do
    if i.text.isNone then
      .error ("Experiment " ++ p.name ++ " intro does not contain text variable.")
    match i.time with
    | none => .error ("Experiment " ++ p.name ++ " intro does not contain time variable.")
    | some t =>
      if ¬ pyIsNumeric t then .error ("Experiment " ++ p.name ++ " intro time is not a number.")
      else pure ()
  match p.breaks with
  | none => pure ()
  | some b => do
    match b.interval with
    | none => .error ("Experiment " ++ p.name ++ " breaks does not contain interval variable.")
    | some iv =>
      if ¬ pyStartsWith iv '-' ∧ ¬ pyIsNumeric iv then
        .error ("Experiment " ++ p.name ++ " breaks interval is not a number.")
      else if pyStartsWith iv '-' ∧ ¬ pyIsNumeric (pyDropOne iv) then
        .error ("Experiment " ++ p.name ++ " breaks interval is not a number.")
      else pure ()
    match b.time with
    | none => .error ("Experiment " ++ p.name ++ " breaks does not contain time variable.")
    | some t =>
      if ¬ pyIsNumeric t then .error ("Experiment " ++ p.name ++ " breaks time is not a number.")
      else pure ()
  let vq ← verifyPartQuestionnaire p.name p.questionnaire
  checkAudioFiles fileExists p.name p.audios
  .ok ⟨p.name, p.intro, p.breaks, p.audios, vq⟩

/-- The main questionnaire manual split block of _verify_experiment
(file_system.py 200-209): only presence of the manual screen key is
checked, with no numeric check. -/
def checkMainManualScreens : List QuestionCfg → Except String Unit
  | [] => .ok ()
  | q :: qs =>
    match q.manualScreen with
    | none => .error "If manual split is set, each questionnaire question requires an assigned screen."
    | some _ => checkMainManualScreens qs

/-- Verification of the parts list in order. -/
def verifyParts (fileExists : String → Bool) : List PartCfg → Except String (List VPart)
  | [] => .ok []
  | p :: rest => do
    let vp ← verifyPart fileExists p
    let vrest ← verifyParts fileExists rest
    .ok (vp :: vrest)

/-- Embedding of PalilaExperiment._verify_experiment (file_system.py 183-217). -/
def verifyExperiment (fileExists : String → Bool) (e : ExperimentCfg) :
    Except String VExperiment := do
  if e.parts.isEmpty ∧ e.questionnaire.isNone then
    .error "Empty experiment in input file"
  let mq : QuestionnaireCfg := e.questionnaire.getD ⟨[], none⟩
  let mqv : VQuestionnaire ←
    match mq.manualSplitKey with
    | some key => do
      let b ← asBool key
      if b then do
        checkMainManualScreens mq.questions
        pure ⟨mq.questions, true⟩
      else pure ⟨mq.questions, false⟩
    | none => pure ⟨mq.questions, false⟩
  if e.parts.isEmpty then
    .error "Experiment does not contain any parts."
  let vparts ← verifyParts fileExists e.parts
  .ok ⟨mqv, vparts⟩

/-! ## Preparation (PalilaExperiment._prepare_questionnaire,
_prepare_part_audio, _prepare_part, _prepare_experiment)

The Python code stores previous and next names inside the config sections;
the embedding keeps them in a link map keyed by part name and section key.
The main questionnaire section is keyed by the empty part name. -/

/-- Map from (part name, section key) to the previous and next names stored
on that section. -/
abbrev LinkMap := List ((String × String) × (String × String))

/-- Read the previous and next names of a section, defaulting to empty. -/
def getLink (m : LinkMap) (k : String × String) : String × String :=
  match m with
  | [] => ("", "")
  | (k', v) :: rest => if k' = k then v else getLink rest k

/-- Write the previous name of a section. -/
def setPrevL (m : LinkMap) (k : String × String) (v : String) : LinkMap :=
  match m with
  | [] => [(k, (v, ""))]
  | (k', pn) :: rest =>
    if k' = k then (k, (v, pn.2)) :: rest else (k', pn) :: setPrevL rest k v

/-- Write the next name of a section. -/
def setNextL (m : LinkMap) (k : String × String) (v : String) : LinkMap :=
  match m with
  | [] => [(k, ("", v))]
  | (k', pn) :: rest =>
    if k' = k then (k, (pn.1, v)) :: rest else (k', pn) :: setNextL rest k v

/-- State threaded through experiment preparation: the link map, the global
question id list, the screen dicts of the main and part questionnaires, and
the names of the screens each part emits, in emission order. -/
structure PrepState where
  links : LinkMap := []
  qids : List String := []
  mainScreenDict : List (String × List String) := []
  partScreenDicts : List (String × List (String × List String)) := []
  emissions : List (String × List String) := []
deriving DecidableEq, Repr

/-- Lookup of a part questionnaire screen dict. -/
def lookupPartSD (l : List (String × List (String × List String))) (k : String) :
    List (String × List String) :=
  match l with
  | [] => []
  | (k', v) :: rest => if k' = k then v else lookupPartSD rest k

/-- Embedding of PalilaExperiment._prepare_questionnaire (file_system.py
219-320), without the deprecated warnings and the default questionnaire
merge: computes the screen dict mapping a screen index (as the str of an
int) to the question names placed there, and the generated question ids. -/
def prepareQuestionnaire (vq : VQuestionnaire) (partName : String) :
    Except String (List (String × List String) × List String) := do
  let partId := if partName = "main" then "main" else pyReplace partName "part " ""
  let rec go (iq : Nat) (qs : List QuestionCfg)
      (screenDict : List (String × List String)) (qids : List String) :
      Except String (List (String × List String) × List String) :=
    match qs with
    | [] => .ok (screenDict, qids)
    | q :: rest => do
      let screenNum : String ←
        if vq.manualSplit then do
          match q.manualScreen with
          | none => .error ("KeyError: manual screen in " ++ q.name)
          | some v => do
            let n ← pyInt v
            pure (pyStrInt n)
        else pure (pyStr (iq / 7))
      let screenDict := pushBucket screenDict screenNum q.name
      let qid := pyZfill partId 2 ++ "-questionnaire-" ++
        pyZfill (pyReplace q.name "question " "") 2
      go (iq + 1) rest screenDict (qids ++ [qid])
  go 0 vq.questions [] []

/-- The replay counter ids of _prepare_part_audio (file_system.py 365-374):
added when the max replays value exceeds one, one per audio manager. -/
def replayCounterIds (partAudio : String) (a : AudioCfg) : Except String (List String) :=
  match a.maxReplays with
  | none => .ok []
  | some mr =>
    match pyInt mr with
    | .error e => .error e
    | .ok n =>
      if 1 < n then
        if a.hasFilename2 then .ok [partAudio ++ "-replays-left", partAudio ++ "-replays-right"]
        else .ok [partAudio ++ "-replays"]
      else .ok []

/-- The part-audio id prefix of _prepare_part_audio (file_system.py
360-363): zero filled part number, a dash, zero filled audio number. -/
def partAudioOf (partName : String) (a : AudioCfg) : String :=
  pyZfill (pyReplace partName "part " "") 2 ++ "-" ++ pyZfill (pyReplace a.name "audio " "") 2

/-- Embedding of the id-generating part of PalilaExperiment._prepare_part_audio
(file_system.py 322-406): the replay counter ids when max replays exceeds
one, then one id per question of the audio. -/
def preparePartAudioIds (partName : String) (a : AudioCfg) : Except String (List String) :=
  match replayCounterIds (partAudioOf partName a) a with
  | .error e => .error e
  | .ok replayIds =>
    .ok (replayIds ++ a.questions.map
      (fun q => partAudioOf partName a ++ "-" ++ pyZfill (pyReplace q "question " "") 2))

/-- Embedding of PalilaExperiment._prepare_part (file_system.py 408-548):
wires the previous and next names along the intro, audio, break and
questionnaire sections of one part and records the emission order. Returns
the updated state with the section key and screen name of the last emitted
screen of the part. -/
def preparePart (ip : Nat) (p : VPart) (previousPart previousAudio previousName : String)
    (st : PrepState) : Except String (PrepState × String × String) := do
  let mut links := st.links
  let mut qids := st.qids
  let mut partScreenDicts := st.partScreenDicts
  let mut emission : List String := []
  -- intro screen (a default intro section is inserted when missing)
  let mut currentName := p.name ++ "-intro"
  links := setPrevL links (p.name, "intro") previousName
  if ip = 0 then
    links := setNextL links ("", "questionnaire") currentName
  else
    links := setNextL links (previousPart, previousAudio) currentName
  let mut prevName := currentName
  let mut prevAudio := "intro"
  emission := emission ++ [currentName]
  -- break parameters (block 1)
  let breaks := p.breaks.isSome
  let breakInterval : Int ←
    match p.breaks with
    | none => pure 0
    | some b =>
      match b.interval with
      | none => .error "KeyError: interval"
      | some iv => pyInt iv
  let mut breakCount : Nat := if breaks then 1 else 0
  -- audio loop
  for h : ia in [0:p.audios.length] do
    let a := p.audios[ia]
    currentName := p.name ++ "-" ++ a.name
    if ia = 0 then
      links := setNextL links (p.name, "intro") currentName
    links := setNextL links (p.name, prevAudio) currentName
    links := setPrevL links (p.name, a.name) prevName
    let aqids ← preparePartAudioIds p.name a
    qids := qids ++ aqids
    prevName := currentName
    prevAudio := a.name
    emission := emission ++ [currentName]
    -- break insertion (block 2)
    let addBreak := breakInterval ≠ 0 ∧ ((ia + 1 : Int) % breakInterval = 0) ∧
      ia + 1 < p.audios.length
    if breaks ∧ addBreak then
      let audio := "break " ++ pyStr breakCount
      currentName := p.name ++ "-" ++ audio
      links := setNextL links (p.name, prevAudio) currentName
      links := setPrevL links (p.name, currentName) prevName
      breakCount := breakCount + 1
      prevName := currentName
      prevAudio := currentName
      emission := emission ++ [currentName]
  -- part questionnaire
  match p.questionnaire with
  | some vq => do
    currentName := p.name ++ "-questionnaire 1"
    links := setNextL links (p.name, prevAudio) currentName
    links := setPrevL links (p.name, "questionnaire") prevName
    let (sd, qq) ← prepareQuestionnaire vq p.name
    partScreenDicts := partScreenDicts ++ [(p.name, sd)]
    qids := qids ++ qq
    prevName := currentName
    prevAudio := "questionnaire"
    emission := emission ++ [currentName]
  | none => pure ()
  -- trailing break
  if breaks ∧ breakInterval ≥ 0 then
    let audio := "break " ++ pyStr breakCount
    currentName := p.name ++ "-" ++ audio
    links := setNextL links (p.name, prevAudio) currentName
    links := setPrevL links (p.name, currentName) prevName
    breakCount := breakCount + 1
    prevName := currentName
    prevAudio := currentName
    emission := emission ++ [currentName]
  let st' : PrepState :=
    { links := links, qids := qids, mainScreenDict := st.mainScreenDict,
      partScreenDicts := partScreenDicts,
      emissions := st.emissions ++ [(p.name, emission)] }
  pure (st', prevAudio, prevName)

/-- Embedding of PalilaExperiment._prepare_experiment (file_system.py
550-600), without the randomise shuffle (configs without the flag). -/
def prepareExperiment (v : VExperiment) : Except String PrepState := do
  let mut st : PrepState := {}
  st := { st with links := setPrevL st.links ("", "questionnaire") "welcome" }
  let (msd, mqids) ← prepareQuestionnaire v.questionnaire "main"
  st := { st with mainScreenDict := msd, qids := mqids }
  let mut previousPart := ""
  let mut previousAudio := ""
  let mut previousName := "main-questionnaire 1"
  let mut ip := 0
  for p in v.parts do
    let (st', pa, pn) ← preparePart ip p previousPart previousAudio previousName st
    st := st'
    previousAudio := pa
    previousName := pn
    previousPart := p.name
    ip := ip + 1
  st := { st with links := setNextL st.links (previousPart, previousAudio) "end" }
  pure st

/-! ## Screen initialisation (PalilaScreenManager._initialise_screens,
GUI/init 84-142, and questionnaire_setup, questionnaire_screen.py 354-390) -/

/-- A compiled screen: its unique kivy name, the previous and next screen
names it stores, the questionnaire questions placed on it and the number of
filler widgets added next to them. -/
structure Screen where
  name : String
  prev : String
  next : String
  questions : List String := []
  fillers : Nat := 0
deriving DecidableEq, Repr

/-- Embedding of questionnaire_setup (questionnaire_screen.py 354-390)
combined with the QuestionnaireScreen constructor (247-280): an empty
screen dict patches the next name of the previous screen, otherwise one
screen per sorted screen dict key is appended, named
part-questionnaire-(ii+1), holding the questions of that bucket and
7 - len(questions) filler widgets. -/
def questionnaireSetup (screenDict : List (String × List String))
    (qPrev qNext : String) (part : String) (screens : List Screen) : List Screen :=
  if screenDict.isEmpty then
    screens.map (fun s => if s.name = qPrev then { s with next := qNext } else s)
  else
    let screenNums := pySorted (screenDict.map (·.1))
    let mx := pyMax screenNums
    screens ++ (screenNums.enum.map (fun iisn =>
      let ii := iisn.1
      let sn := iisn.2
      let previousScreen := if ii ≠ 0 then part ++ "-questionnaire-" ++ pyStr ii else qPrev
      let nextScreen :=
        if pyStrLt sn mx then part ++ "-questionnaire-" ++ pyStr (ii + 2) else qNext
      let qs := lookupBucket screenDict sn
      { name := part ++ "-questionnaire-" ++ pyStr (ii + 1), prev := previousScreen,
        next := nextScreen, questions := qs, fillers := 7 - qs.length }))

/-- Embedding of PalilaScreenManager._initialise_screens (GUI/init 84-142)
for experiments without the demo screen: welcome screen, main questionnaire
screens, then per part the intro, audio, break and questionnaire screens,
then the end and final screens. -/
def initialiseScreens (v : VExperiment) (st : PrepState) : List Screen := Id.run do
  let mut screens : List Screen := [{ name := "welcome", prev := "", next := "main-questionnaire 1" }]
  let mql := getLink st.links ("", "questionnaire")
  screens := questionnaireSetup st.mainScreenDict mql.1 mql.2 "main" screens
  for p in v.parts do
    let il := getLink st.links (p.name, "intro")
    screens := screens ++ [{ name := p.name ++ "-intro", prev := il.1, next := il.2 }]
    for a in p.audios do
      let al := getLink st.links (p.name, a.name)
      screens := screens ++ [{ name := p.name ++ "-" ++ a.name, prev := al.1, next := al.2 }]
      if pyContains al.2 "break" then
        let bl := getLink st.links (p.name, al.2)
        screens := screens ++ [{ name := al.2, prev := bl.1, next := bl.2 }]
    match p.questionnaire with
    | some _ =>
      let ql := getLink st.links (p.name, "questionnaire")
      screens := questionnaireSetup (lookupPartSD st.partScreenDicts p.name) ql.1 ql.2 p.name screens
      if pyContains ql.2 "break" then
        let bl := getLink st.links (p.name, ql.2)
        screens := screens ++ [{ name := ql.2, prev := bl.1, next := bl.2 }]
    | none => pure ()
  screens := screens ++ [{ name := "end", prev := "main-questionnaire 1", next := "final" },
    { name := "final", prev := "end", next := "" }]
  pure screens

/-! ## The full compile pipeline -/

/-- Expansion of every part of the raw config, as done in
PalilaExperiment.__init__ before verification. -/
def expandExperiment (e : ExperimentCfg) : Except String ExperimentCfg := do
  let rec go : List PartCfg → Except String (List PartCfg)
    | [] => .ok []
    | p :: rest => do
      let audios ← expandAudios p.audios
      let prest ← go rest
      .ok ({ p with audios := audios } :: prest)
  let parts ← go e.parts
  .ok { e with parts := parts }

/-- The experiment compiler: repeat expansion, verification, preparation and
screen initialisation, as run by PalilaExperiment.__init__ followed by
PalilaScreenManager._initialise_screens. -/
def compile (fileExists : String → Bool) (e : ExperimentCfg) : Except String (List Screen) := do
  let e' ← expandExperiment e
  let v ← verifyExperiment fileExists e'
  let st ← prepareExperiment v
  pure (initialiseScreens v st)

/-- The prepared state of a config, for inspecting emission order and ids. -/
def preparedState (fileExists : String → Bool) (e : ExperimentCfg) : Except String PrepState := do
  let e' ← expandExperiment e
  let v ← verifyExperiment fileExists e'
  prepareExperiment v

/-- The screens of a compiled config, or the empty list on a config error. -/
def compiledScreens (fileExists : String → Bool) (e : ExperimentCfg) : List Screen :=
  match compile fileExists e with
  | .ok s => s
  | .error _ => []

/-- The emission-order screen name list of one part of a prepared config. -/
def emissionOf (fileExists : String → Bool) (e : ExperimentCfg) (partName : String) : List String :=
  match preparedState fileExists e with
  | .ok st => lookupBucket st.emissions partName
  | .error _ => []

/-- The names of a list of screens. -/
def screenNames (l : List Screen) : List String := l.map (·.name)

/-- The previous and next references of a screen list that resolve to no
screen name of the same list; the empty string marks the absence of a
reference and is not a dangling reference. -/
def danglingRefs (l : List Screen) : List String :=
  ((l.map (·.prev)) ++ (l.map (·.next))).filter
    (fun r => r ≠ "" ∧ ¬ (screenNames l).contains r)

/-! ## Dependency and answer state at runtime (questions.py)

State of one screen: the question manager's answers dict, the answer_temp
cache of every question and the kivy disabled flag of every question.  The
engine in the source supports one level of controller to dependant edges
(section 9 of the design notes); the embedding models a controller whose
dependants have no dependants of their own, so the dependants loop of a
dependant's own change_answer is empty. -/

/-- A dependant question: its id and its unlock condition value. -/
structure DepQ where
  qid : String
  cond : String
deriving DecidableEq, Repr

/-- A controller question and its registered dependants, in registration
order. -/
structure Ctrl where
  qid : String
  deps : List DepQ
deriving DecidableEq, Repr

/-- Runtime state of one screen's questions. -/
structure QState where
  answers : List (String × String)
  temps : List (String × String)
  disabled : List (String × Bool)
deriving DecidableEq, Repr

/-- QuestionManager.change_answer (questions.py 106-119): overwrite the
answers dict entry.  The subsequent unlock_check call only drives the
continue button and touches no modelled state. -/
def mgrChangeAnswer (s : QState) (qid a : String) : QState :=
  { s with answers := setKV s.answers qid a }

/-- Question.change_answer (questions.py 197-219) of a question with no
dependants of its own: the dependants loop is empty, then the manager is
informed. -/
def depChangeAnswer (s : QState) (qid a : String) : QState :=
  mgrChangeAnswer s qid a

/-- Question.dependant_lock (questions.py 244-257): cache the current
answer when the cache is empty, normalising the sentinel to the empty
string, then change the answer to the sentinel and disable the question. -/
def dependantLock (s : QState) (d : DepQ) : QState :=
  let s1 :=
    if lookupD s.temps d.qid "" = "" then
      let toStore := lookupD s.answers d.qid ""
      { s with temps := setKV s.temps d.qid (if toStore = "n/a" then "" else toStore) }
    else s
  let s2 := depChangeAnswer s1 d.qid "n/a"
  { s2 with disabled := setKB s2.disabled d.qid true }

/-- Question.dependant_unlock (questions.py 259-268): enable the question,
change the answer back to the cached one, then clear the cache. -/
def dependantUnlock (s : QState) (d : DepQ) : QState :=
  let s1 := { s with disabled := setKB s.disabled d.qid false }
  let s2 := depChangeAnswer s1 d.qid (lookupD s1.temps d.qid "")
  { s2 with temps := setKV s2.temps d.qid "" }

/-- The unlock test of Question.change_answer (questions.py 211): a token
of the new answer, split on the semicolon, lies in the dependant's unlock
condition split the same way, and the controller is not disabled. -/
def unlockFires (s : QState) (c : Ctrl) (d : DepQ) (a : String) : Bool :=
  (pySplit a ';').any (fun tok => (pySplit d.cond ';').contains tok) &&
  ! lookupB s.disabled c.qid false

/-- One iteration of the dependants loop of Question.change_answer. -/
def propagateStep (s : QState) (c : Ctrl) (a : String) (d : DepQ) : QState :=
  if unlockFires s c d a then dependantUnlock s d else dependantLock s d

/-- The dependants loop of Question.change_answer (questions.py 206-216). -/
def propagateAux (c : Ctrl) (a : String) (s : QState) : List DepQ → QState
  | [] => s
  | d :: rest => propagateAux c a (propagateStep s c a d) rest

/-- The full dependants loop over the controller's registered dependants. -/
def propagate (s : QState) (c : Ctrl) (a : String) : QState :=
  propagateAux c a s c.deps

/-- Question.change_answer of a controller (questions.py 197-219): the
dependants loop runs first, then the manager's answers dict is updated. -/
def ctrlChangeAnswer (s : QState) (c : Ctrl) (a : String) : QState :=
  mgrChangeAnswer (propagate s c a) c.qid a

/-- The state at which each dependant's lock or unlock begins, in loop
order: entry k is the state seen by the reaction of the k-th dependant. -/
def propagationStatesAux (c : Ctrl) (a : String) (s : QState) : List DepQ → List QState
  | [] => []
  | d :: rest => s :: propagationStatesAux c a (propagateStep s c a d) rest

/-- The states seen by the dependant reactions during a controller's
change_answer, in order. -/
def propagationStates (s : QState) (c : Ctrl) (a : String) : List QState :=
  propagationStatesAux c a s c.deps

/-- The order the specification describes for changeAnswer: overwrite the
answers entry first, then run the dependants loop.  Modelled from the
spec: used only to compare against ctrlChangeAnswer, which is the order
the source implements. -/
def ctrlChangeAnswerSpecOrder (s : QState) (c : Ctrl) (a : String) : QState :=
  propagate (mgrChangeAnswer s c.qid a) c a

/-! ## Completion state (QuestionManager.get_state, questions.py 90-104,
and QQuestionManager.get_state, questionnaire_screen.py 335-347) -/

/-- Manager-level state: the answers dict and the kivy disabled flag of the
whole manager (read by change_answer but never by get_state). -/
structure MgrState where
  answers : List (String × String)
  mgrDisabled : Bool
deriving DecidableEq, Repr

/-- QuestionManager.get_state and QQuestionManager.get_state: conjunction of
bool(answer) over every entry of the answers dict. -/
def getState (m : MgrState) : Bool :=
  m.answers.foldl (fun t p => t && p.2 != "") true

/-- QuestionManager.add_question (questions.py 62-82): a new answers entry,
initialised to the sentinel for Text questions and empty otherwise. -/
def addQuestion (m : MgrState) (qid : String) (isTextType : Bool) : MgrState :=
  { m with answers := setKV m.answers qid (if isTextType then "n/a" else "") }

/-- The answers-dict update of QuestionManager.change_answer at manager
level. -/
def mgrSetAnswer (m : MgrState) (qid a : String) : MgrState :=
  { m with answers := setKV m.answers qid a }

/-! ## Participant id (PalilaScreenManager.set_pid, GUI/init 168-182, and
PalilaAnswers.set_pid, file_system.py 645-655) -/

/-- The wall clock fields read by strftime. -/
structure ClockStamp where
  year : Nat
  month : Nat
  day : Nat
  hour : Nat
  minute : Nat
deriving DecidableEq, Repr

/-- Embedding of datetime.now().strftime with the fixed pattern of two-digit
year, month, day, a dash, and two-digit hour and minute. -/
def strftimeStamp (t : ClockStamp) : String :=
  pyZfill (pyStr (t.year % 100)) 2 ++ pyZfill (pyStr t.month) 2 ++ pyZfill (pyStr t.day) 2 ++
  "-" ++ pyZfill (pyStr t.hour) 2 ++ pyZfill (pyStr t.minute) 2

/-- The modelled fields of PalilaAnswers. -/
structure AnswersState where
  path : String
  pid : Option String
  outPath : Option String
deriving DecidableEq, Repr

/-- PalilaAnswers.set_pid (file_system.py 645-655): store the pid and derive
the output path under the experiment's responses directory from it. -/
def answersSetPid (st : AnswersState) (pid : String) : AnswersState :=
  { st with pid := some pid, outPath := some (st.path ++ "/responses/" ++ pid ++ ".csv") }

/-- PalilaScreenManager.set_pid (GUI/init 168-182): auto mode derives a
timestamp id and ignores the argument, input mode takes the argument, any
other mode raises SyntaxError. -/
def managerSetPid (pidMode : String) (now : ClockStamp) (st : AnswersState) (pid : String) :
    Except String AnswersState :=
  if pidMode = "auto" then .ok (answersSetPid st (strftimeStamp now))
  else if pidMode = "input" then .ok (answersSetPid st pid)
  else .error ("Participant ID mode pid mode = " ++ pidMode ++ " not supported!")

/-- Recogniser of the timestamp id shape: six digits, a dash, four digits. -/
def matchesStampPattern (s : String) : Bool :=
  match s.data with
  | [a, b, c, d, e, f, g, h, i, j, k] =>
    [a, b, c, d, e, f].all Char.isDigit && g = '-' && [h, i, j, k].all Char.isDigit
  | _ => false

/-! ## Concrete configurations and states used by the claim theorems -/

/-- Concrete audio section with a repeat count of three. -/
def c4Audio : AudioCfg :=
  { name := "audio 1", filename := some "a.wav", hasFilename2 := false,
    maxReplays := none, repeatKey := some "3", questions := ["question 1"] }

/-- An audio section with one question and no optional keys, whose file is
present. -/
def mkAudio (n : String) : AudioCfg :=
  { name := "audio " ++ n, filename := some "a.wav", hasFilename2 := false,
    maxReplays := none, repeatKey := none, questions := ["question 1"] }

/-- A valid experiment: a main questionnaire with one question and one part
with one audio item. -/
def c1Config : ExperimentCfg :=
  { questionnaire := some { questions := [{ name := "question 1", manualScreen := none }],
                            manualSplitKey := none },
    parts := [{ name := "part 1", intro := none, breaks := none,
                audios := [mkAudio "1"], questionnaire := none }] }

/-- A questionnaire question manually assigned to screen index one. -/
def c2Question (n : String) : QuestionCfg :=
  { name := "question " ++ n, manualScreen := some "1" }

/-- A valid experiment whose main questionnaire manually assigns eight
questions to the single screen index one. -/
def c2Config : ExperimentCfg :=
  { questionnaire := some
      { questions := [c2Question "1", c2Question "2", c2Question "3", c2Question "4",
                      c2Question "5", c2Question "6", c2Question "7", c2Question "8"],
        manualSplitKey := some "yes" },
    parts := [{ name := "part 1", intro := none, breaks := none,
                audios := [mkAudio "1"], questionnaire := none }] }

/-- A valid experiment: one part with two audio items, a breaks section
with interval one, and a trailing part questionnaire. -/
def c3Config : ExperimentCfg :=
  { questionnaire := none,
    parts := [{ name := "part 1", intro := none,
                breaks := some { interval := some "1", time := some "30", text := none },
                audios := [mkAudio "1", mkAudio "2"],
                questionnaire := some
                  { questions := [{ name := "question 1", manualScreen := none }],
                    manualSplitKey := none } }] }

/-- The C8 controller with one dependant and a screen state holding the old
controller answer. -/
def c8State : QState :=
  ⟨[("q1", "old"), ("q2", "x")], [("q1", ""), ("q2", "")], [("q1", false), ("q2", false)]⟩

/-- The C8 controller question. -/
def c8Ctrl : Ctrl := ⟨"q1", [⟨"q2", "yes"⟩]⟩

/-! ## Association list lemmas -/

theorem lookupD_setKV_self (l : List (String × String)) (k v d : String) :
    lookupD (setKV l k v) k d = v := by
  induction l with
  | nil => simp [setKV, lookupD]
  | cons p rest ih =>
    by_cases h : p.1 = k
    · simp [setKV, h, lookupD]
    · simp [setKV, h, lookupD, ih]

theorem lookupD_setKV_other (l : List (String × String)) (k k' v d : String) (h : k' ≠ k) :
    lookupD (setKV l k v) k' d = lookupD l k' d := by
  induction l with
  | nil =>
    simp only [setKV, lookupD]
    rw [if_neg (Ne.symm h)]
  | cons p rest ih =>
    by_cases hp : p.1 = k
    · subst hp
      simp [setKV, lookupD, h, Ne.symm h]
    · simp [setKV, hp, lookupD, ih]

theorem lookupB_setKB_self (l : List (String × Bool)) (k : String) (v d : Bool) :
    lookupB (setKB l k v) k d = v := by
  induction l with
  | nil => simp [setKB, lookupB]
  | cons p rest ih =>
    by_cases h : p.1 = k
    · simp [setKB, h, lookupB]
    · simp [setKB, h, lookupB, ih]

theorem lookupB_setKB_other (l : List (String × Bool)) (k k' : String) (v : Bool) (d : Bool)
    (h : k' ≠ k) : lookupB (setKB l k v) k' d = lookupB l k' d := by
  induction l with
  | nil =>
    simp only [setKB, lookupB]
    rw [if_neg (Ne.symm h)]
  | cons p rest ih =>
    by_cases hp : p.1 = k
    · subst hp
      simp [setKB, lookupB, h, Ne.symm h]
    · simp [setKB, hp, lookupB, ih]

theorem setKV_keys (l : List (String × String)) (k k' v : String) :
    k ∈ (setKV l k' v).map (·.1) ↔ k ∈ l.map (·.1) ∨ k = k' := by
  induction l with
  | nil => simp [setKV]
  | cons p rest ih =>
    obtain ⟨k₀, v₀⟩ := p
    by_cases hp : k₀ = k'
    · subst hp
      simp [setKV]
      tauto
    · simp only [setKV, if_neg hp, List.map_cons, List.mem_cons, ih]
      tauto

theorem setKV_mem_keys (l : List (String × String)) (k k' v : String)
    (h : k ∈ l.map (·.1)) : k ∈ (setKV l k' v).map (·.1) :=
  (setKV_keys l k k' v).mpr (Or.inl h)

theorem setKV_comm_of_mem (l : List (String × String)) (k₁ k₂ v₁ v₂ : String)
    (hne : k₁ ≠ k₂) (hmem : k₁ ∈ l.map (·.1)) :
    setKV (setKV l k₁ v₁) k₂ v₂ = setKV (setKV l k₂ v₂) k₁ v₁ := by
  induction l with
  | nil => simp at hmem
  | cons p rest ih =>
    by_cases h1 : p.1 = k₁
    · simp [setKV, h1, hne, Ne.symm hne]
    · by_cases h2 : p.1 = k₂
      · simp [setKV, h1, h2, hne, Ne.symm hne]
      · have hmem' : k₁ ∈ rest.map (·.1) := by
          rcases List.mem_map.mp hmem with ⟨q, hq, hk⟩
          rcases List.mem_cons.mp hq with rfl | hq'
          · exact absurd hk h1
          · exact List.mem_map.mpr ⟨q, hq', hk⟩
        simp [setKV, h1, h2, ih hmem']

theorem mem_setKV_of_nodup (l : List (String × String)) (k v : String)
    (hnd : (l.map (·.1)).Nodup) (p : String × String) (hp : p ∈ setKV l k v) :
    p = (k, v) ∨ (p ∈ l ∧ p.1 ≠ k) := by
  induction l with
  | nil =>
    simp [setKV] at hp
    exact Or.inl hp
  | cons q rest ih =>
    simp only [List.map_cons, List.nodup_cons] at hnd
    by_cases hq : q.1 = k
    · subst hq
      simp only [setKV, if_pos rfl] at hp
      rcases List.mem_cons.mp hp with rfl | hp'
      · exact Or.inl rfl
      · refine Or.inr ⟨List.mem_cons.mpr (Or.inr hp'), ?_⟩
        intro hk
        exact hnd.1 (List.mem_map.mpr ⟨p, hp', hk⟩)
    · simp only [setKV, if_neg hq] at hp
      rcases List.mem_cons.mp hp with rfl | hp'
      · exact Or.inr ⟨List.mem_cons.mpr (Or.inl rfl), hq⟩
      · rcases ih hnd.2 hp' with h | ⟨h1, h2⟩
        · exact Or.inl h
        · exact Or.inr ⟨List.mem_cons.mpr (Or.inr h1), h2⟩

/-! ## Digit and decimal representation lemmas -/

theorem digitChar_isDigit (d : Nat) (h : d < 10) : (digitChar d).isDigit = true := by
  interval_cases d <;> decide

theorem digitChar_toNat (d : Nat) (h : d < 10) : (digitChar d).toNat = 48 + d := by
  interval_cases d <;> decide

theorem digitChar_ne_zero (d : Nat) (h0 : 0 < d) (h : d < 10) : digitChar d ≠ '0' := by
  interval_cases d <;> decide

theorem isDigit_ne (c c₀ : Char) (h : c.isDigit = true) (h₀ : c₀.isDigit = false) : c ≠ c₀ := by
  rintro rfl
  simp [h] at h₀

theorem decStep_digitChar (a n : Nat) : decStep a (digitChar (n % 10)) = 10 * a + n % 10 := by
  have h : n % 10 < 10 := Nat.mod_lt _ (by norm_num)
  simp [decStep, digitChar_toNat _ h]

theorem pyStrAux_zero (n : Nat) (acc : List Char) : pyStrAux 0 n acc = acc := rfl

theorem pyStrAux_succ_lt (f n : Nat) (acc : List Char) (h : n < 10) :
    pyStrAux (f + 1) n acc = digitChar (n % 10) :: acc := by
  simp [pyStrAux, if_pos h]

theorem pyStrAux_succ_ge (f n : Nat) (acc : List Char) (h : ¬ n < 10) :
    pyStrAux (f + 1) n acc = pyStrAux f (n / 10) (digitChar (n % 10) :: acc) := by
  simp [pyStrAux, if_neg h]

theorem div_ten_lt_pow (f n : Nat) (h : n < 10 ^ (f + 1)) : n / 10 < 10 ^ f := by
  apply (Nat.div_lt_iff_lt_mul (by norm_num : 0 < 10)).mpr
  calc n < 10 ^ (f + 1) := h
  _ = 10 ^ f * 10 := by ring

theorem pyStrAux_decode (f : Nat) : ∀ (n : Nat) (acc : List Char), n < 10 ^ f →
    (pyStrAux f n acc).foldl decStep 0 = acc.foldl decStep n := by
  induction f with
  | zero =>
    intro n acc h
    interval_cases n
    simp [pyStrAux_zero]
  | succ f ih =>
    intro n acc h
    by_cases hn : n < 10
    · rw [pyStrAux_succ_lt f n acc hn]
      simp only [List.foldl_cons, decStep_digitChar]
      have : n % 10 = n := Nat.mod_eq_of_lt hn
      simp [this]
    · rw [pyStrAux_succ_ge f n acc hn, ih (n / 10) _ (div_ten_lt_pow f n h)]
      simp only [List.foldl_cons, decStep_digitChar]
      rw [Nat.div_add_mod]

theorem lt_ten_pow_succ (n : Nat) : n < 10 ^ (n + 1) := by
  have h1 : n < 10 ^ n := Nat.lt_pow_self (by norm_num) n
  have h2 : 10 ^ n ≤ 10 ^ (n + 1) := Nat.pow_le_pow_right (by norm_num) (Nat.le_succ n)
  omega

theorem pyStr_decode (n : Nat) : (pyStr n).data.foldl decStep 0 = n := by
  have := pyStrAux_decode (n + 1) n [] (lt_ten_pow_succ n)
  simpa [pyStr] using this

theorem pyStr_inj (m n : Nat) (h : pyStr m = pyStr n) : m = n := by
  have hd : (pyStr m).data = (pyStr n).data := by rw [h]
  have := pyStr_decode m
  rw [hd, pyStr_decode n] at this
  omega

theorem pyStrAux_cons (f : Nat) : ∀ (n : Nat) (acc : List Char), n < 10 ^ (f + 1) →
    ∃ c t, pyStrAux (f + 1) n acc = c :: t ∧ c.isDigit = true ∧ (0 < n → c ≠ '0') := by
  induction f with
  | zero =>
    intro n acc h
    have hn : n < 10 := by simpa using h
    refine ⟨digitChar (n % 10), acc, pyStrAux_succ_lt 0 n acc hn, ?_, ?_⟩
    · exact digitChar_isDigit _ (Nat.mod_lt _ (by norm_num))
    · intro h0
      have : n % 10 = n := Nat.mod_eq_of_lt hn
      rw [this]
      exact digitChar_ne_zero n h0 hn
  | succ f ih =>
    intro n acc h
    by_cases hn : n < 10
    · refine ⟨digitChar (n % 10), acc, pyStrAux_succ_lt (f + 1) n acc hn, ?_, ?_⟩
      · exact digitChar_isDigit _ (Nat.mod_lt _ (by norm_num))
      · intro h0
        have : n % 10 = n := Nat.mod_eq_of_lt hn
        rw [this]
        exact digitChar_ne_zero n h0 hn
    · obtain ⟨c, t, heq, hdig, hnz⟩ :=
        ih (n / 10) (digitChar (n % 10) :: acc) (div_ten_lt_pow (f + 1) n h)
      refine ⟨c, t, ?_, hdig, ?_⟩
      · rw [pyStrAux_succ_ge (f + 1) n acc hn, heq]
      · intro _
        apply hnz
        have : 10 ≤ n := Nat.le_of_not_lt hn
        omega

theorem pyStr_data_cons (n : Nat) :
    ∃ c t, (pyStr n).data = c :: t ∧ c.isDigit = true ∧ (0 < n → c ≠ '0') := by
  obtain ⟨c, t, heq, hdig, hnz⟩ := pyStrAux_cons n n [] (lt_ten_pow_succ n)
  exact ⟨c, t, by simp [pyStr, heq], hdig, hnz⟩

theorem stringDataExt (s t : String) (h : s.data = t.data) : s = t := by
  cases s
  cases t
  exact congrArg String.mk h

theorem pyStrAux_digits (f : Nat) : ∀ (n : Nat) (acc : List Char),
    (∀ c ∈ acc, c.isDigit = true) → ∀ c ∈ pyStrAux f n acc, c.isDigit = true := by
  induction f with
  | zero =>
    intro n acc hacc c hc
    exact hacc c (by simpa [pyStrAux_zero] using hc)
  | succ f ih =>
    intro n acc hacc c hc
    by_cases hn : n < 10
    · rw [pyStrAux_succ_lt f n acc hn] at hc
      rcases List.mem_cons.mp hc with rfl | hc'
      · exact digitChar_isDigit _ (Nat.mod_lt _ (by norm_num))
      · exact hacc c hc'
    · rw [pyStrAux_succ_ge f n acc hn] at hc
      refine ih (n / 10) _ ?_ c hc
      intro c' hc'
      rcases List.mem_cons.mp hc' with rfl | hc''
      · exact digitChar_isDigit _ (Nat.mod_lt _ (by norm_num))
      · exact hacc c' hc''

theorem pyStr_all_digit (n : Nat) : ∀ c ∈ (pyStr n).data, c.isDigit = true := by
  intro c hc
  exact pyStrAux_digits (n + 1) n [] (by simp) c (by simpa [pyStr] using hc)

/-! ## zfill lemmas -/

theorem pyZfillL_long (s : List Char) (w : Nat) (h : w ≤ s.length) : pyZfillL s w = s := by
  simp [pyZfillL, if_pos h]

theorem pyZfillL_single_digit (c : Char) (h : c.isDigit = true) :
    pyZfillL [c] 2 = ['0', c] := by
  have h1 : ¬ (2 : Nat) ≤ [c].length := by simp
  have h2 : ¬ (c = '+' ∨ c = '-') := by
    rintro (rfl | rfl) <;> simp [Char.isDigit] at h
  simp [pyZfillL, if_neg h1, if_neg h2, List.replicate]

theorem pyZfillL_digits (s : List Char) (w : Nat) (hs : ∀ c ∈ s, c.isDigit = true) :
    ∀ c ∈ pyZfillL s w, c.isDigit = true := by
  intro c hc
  by_cases hl : w ≤ s.length
  · exact hs c (by rwa [pyZfillL_long s w hl] at hc)
  · cases s with
    | nil =>
      simp only [pyZfillL, if_neg hl] at hc
      have := List.eq_of_mem_replicate hc
      subst this
      decide
    | cons c₀ rest =>
      have hc₀ : c₀.isDigit = true := hs c₀ (List.mem_cons_self _ _)
      have hsign : ¬ (c₀ = '+' ∨ c₀ = '-') := by
        rintro (rfl | rfl) <;> simp [Char.isDigit] at hc₀
      simp only [pyZfillL, if_neg hl, if_neg hsign] at hc
      rcases List.mem_append.mp hc with hrep | hmem
      · have := List.eq_of_mem_replicate hrep
        subst this
        decide
      · exact hs c hmem

theorem pyZfillL_dashfree (s : List Char) (w : Nat) (hs : '-' ∉ s) :
    '-' ∉ pyZfillL s w := by
  intro hc
  by_cases hl : w ≤ s.length
  · rw [pyZfillL_long s w hl] at hc
    exact hs hc
  · cases s with
    | nil =>
      simp only [pyZfillL, if_neg hl] at hc
      have := List.eq_of_mem_replicate hc
      simp at this
    | cons c₀ rest =>
      by_cases hsign : c₀ = '+' ∨ c₀ = '-'
      · simp only [pyZfillL, if_neg hl, if_pos hsign] at hc
        rcases List.mem_cons.mp hc with h0 | hc'
        · exact hs (h0 ▸ List.mem_cons_self _ _)
        · rcases List.mem_append.mp hc' with hrep | hmem
          · have := List.eq_of_mem_replicate hrep
            simp at this
          · exact hs (List.mem_cons_of_mem _ hmem)
      · simp only [pyZfillL, if_neg hl, if_neg hsign] at hc
        rcases List.mem_append.mp hc with hrep | hmem
        · have := List.eq_of_mem_replicate hrep
          simp at this
        · exact hs hmem

/-- Injectivity of the two-digit zfill of str on positive numbers: distinct
repeat indices give distinct suffixes. -/
theorem pyZfill_pyStr_inj (a b : Nat)
    (h : pyZfill (pyStr (a + 1)) 2 = pyZfill (pyStr (b + 1)) 2) : a = b := by
  have hd : pyZfillL (pyStr (a + 1)).data 2 = pyZfillL (pyStr (b + 1)).data 2 :=
    congrArg String.data h
  obtain ⟨c, t, hc, hcd, hcz⟩ := pyStr_data_cons (a + 1)
  obtain ⟨c', t', hc', hcd', hcz'⟩ := pyStr_data_cons (b + 1)
  have hdataeq : (pyStr (a + 1)).data = (pyStr (b + 1)).data → a = b := by
    intro hx
    have h1 := pyStr_decode (a + 1)
    rw [hx, pyStr_decode (b + 1)] at h1
    omega
  rw [hc, hc'] at hd
  cases t with
  | nil =>
    cases t' with
    | nil =>
      rw [pyZfillL_single_digit c hcd, pyZfillL_single_digit c' hcd'] at hd
      have hcc : c = c' := by simpa using hd
      exact hdataeq (by rw [hc, hc', hcc])
    | cons x' xs' =>
      rw [pyZfillL_single_digit c hcd,
        pyZfillL_long (c' :: x' :: xs') 2 (by simp)] at hd
      have h0 : '0' = c' := by injection hd
      exact absurd h0.symm (hcz' (Nat.succ_pos b))
  | cons x xs =>
    cases t' with
    | nil =>
      rw [pyZfillL_single_digit c' hcd',
        pyZfillL_long (c :: x :: xs) 2 (by simp)] at hd
      have h0 : c = '0' := by injection hd
      exact absurd h0 (hcz (Nat.succ_pos a))
    | cons x' xs' =>
      rw [pyZfillL_long (c :: x :: xs) 2 (by simp),
        pyZfillL_long (c' :: x' :: xs') 2 (by simp)] at hd
      exact hdataeq (by rw [hc, hc', hd])

/-! ## replace lemmas -/

theorem pyReplaceAux_nomatch (p r : List Char) (hp : p ≠ []) (f : Nat) :
    ∀ (v : List Char), (∀ c ∈ v, c ∉ p) → pyReplaceAux f v p r = v := by
  induction f with
  | zero => intro v _; rfl
  | succ f ih =>
    intro v hv
    cases v with
    | nil => rfl
    | cons c cs =>
      have hpre : p.isPrefixOf (c :: cs) = false := by
        cases p with
        | nil => exact absurd rfl hp
        | cons q qs =>
          have hq : q ≠ c := by
            intro hqc
            apply hv c (List.mem_cons_self _ _)
            rw [← hqc]
            exact List.mem_cons_self _ _
          simp [List.isPrefixOf, hq]
      simp only [pyReplaceAux, hpre, Bool.false_eq_true, if_false]
      rw [ih cs (fun c' hc' => hv c' (List.mem_cons_of_mem _ hc'))]

theorem isPrefixOf_append_self (l t : List Char) : l.isPrefixOf (l ++ t) = true := by
  induction l with
  | nil => cases t <;> rfl
  | cons c cs ih => simp [List.isPrefixOf, ih]

theorem pyReplaceAux_strip (p r w : List Char) (hp : p ≠ []) (hw : ∀ c ∈ w, c ∉ p) (f : Nat) :
    pyReplaceAux (f + 1) (p ++ w) p r = r ++ w := by
  cases p with
  | nil => exact absurd rfl hp
  | cons q qs =>
    have hpre : (q :: qs).isPrefixOf ((q :: qs) ++ w) = true := isPrefixOf_append_self _ _
    have hdrop : ((q :: qs) ++ w).drop (q :: qs).length = w := List.drop_left _ _
    show pyReplaceAux (f + 1) (q :: (qs ++ w)) (q :: qs) r = r ++ w
    simp only [pyReplaceAux]
    rw [show q :: (qs ++ w) = (q :: qs) ++ w from rfl, hpre]
    simp only [if_true]
    rw [hdrop, pyReplaceAux_nomatch (q :: qs) r hp f w hw]

/-- String replace of a leading pattern occurrence when no character of the
remainder occurs in the pattern. -/
theorem pyReplace_strip (p r : String) (w : List Char) (hp : p.data ≠ [])
    (hw : ∀ c ∈ w, c ∉ p.data) : pyReplace ⟨p.data ++ w⟩ p r = ⟨r.data ++ w⟩ := by
  apply stringDataExt
  show pyReplaceAux ((p.data ++ w).length + 1) (p.data ++ w) p.data r.data = r.data ++ w
  exact pyReplaceAux_strip p.data r.data w hp hw _

/-! ## Audio name and id lemmas for the repeat expansion -/

theorem digit_notin_audio (c : Char) (h : c.isDigit = true) : c ∉ ("audio " : String).data := by
  intro hm
  have haud : ("audio " : String).data = ['a', 'u', 'd', 'i', 'o', ' '] := rfl
  rw [haud] at hm
  fin_cases hm <;> exact absurd h (by decide)

theorem expandCopy_name_data (a : AudioCfg) (ri : Nat) :
    (expandCopy a ri).name.data = a.name.data ++ '_' :: (pyZfill (pyStr (ri + 1)) 2).data := by
  show (a.name ++ "_" ++ pyZfill (pyStr (ri + 1)) 2).data = _
  rw [String.data_append, String.data_append, List.append_assoc]
  rfl

theorem audioId_of_copy (a : AudioCfg) (base : List Char) (ri : Nat)
    (hname : a.name.data = ("audio " : String).data ++ base)
    (hbase : ∀ c ∈ base, c ∉ ("audio " : String).data) :
    pyReplace (expandCopy a ri).name "audio " "" =
      ⟨base ++ '_' :: (pyZfill (pyStr (ri + 1)) 2).data⟩ := by
  have hw : ∀ c ∈ base ++ '_' :: (pyZfill (pyStr (ri + 1)) 2).data,
      c ∉ ("audio " : String).data := by
    intro c hc
    rcases List.mem_append.mp hc with hb | hz
    · exact hbase c hb
    · rcases List.mem_cons.mp hz with rfl | hz'
      · decide
      · exact digit_notin_audio c (pyZfillL_digits _ _ (pyStr_all_digit _) c hz')
  have hdata : (expandCopy a ri).name =
      ⟨("audio " : String).data ++ (base ++ '_' :: (pyZfill (pyStr (ri + 1)) 2).data)⟩ := by
    apply stringDataExt
    rw [expandCopy_name_data, hname]
    simp [List.append_assoc]
  rw [hdata]
  have h := pyReplace_strip "audio " "" (base ++ '_' :: (pyZfill (pyStr (ri + 1)) 2).data)
    (by decide) hw
  simpa using h

theorem dash_cons_data (x y : String) : (x ++ "-" ++ y).data = x.data ++ '-' :: y.data := by
  rw [String.data_append, String.data_append, List.append_assoc]
  rfl

theorem pyZfillL_cons_len (c : Char) (t : List Char) : 2 ≤ (pyZfillL (c :: t) 2).length := by
  by_cases h : (2 : Nat) ≤ (c :: t).length
  · rw [pyZfillL_long _ _ h]
    exact h
  · have ht : t = [] := by
      simp only [List.length_cons] at h
      have := List.length_eq_zero.mp (by omega : t.length = 0)
      exact this
    subst ht
    by_cases hs : c = '+' ∨ c = '-'
    · simp [pyZfillL, h, hs]
    · simp [pyZfillL, h, hs]

theorem replayCounterIds_shape (pa : String) (b : AudioCfg) (l : List String)
    (h : replayCounterIds pa b = .ok l) :
    ∀ s ∈ l, ∃ t, s.data = pa.data ++ '-' :: t := by
  intro s hs
  cases hmr : b.maxReplays with
  | none =>
    simp only [replayCounterIds, hmr] at h
    injection h with h'
    subst h'
    simp at hs
  | some mr =>
    cases hint : pyInt mr with
    | error e =>
      simp only [replayCounterIds, hmr, hint] at h
      exact Except.noConfusion h
    | ok n =>
      simp only [replayCounterIds, hmr, hint] at h
      by_cases h1 : 1 < n
      · rw [if_pos h1] at h
        by_cases h2 : b.hasFilename2 = true
        · rw [if_pos h2] at h
          injection h with h'
          subst h'
          rcases List.mem_cons.mp hs with rfl | hs'
          · exact ⟨("replays-left" : String).data, by rw [String.data_append]⟩
          · rcases List.mem_cons.mp hs' with rfl | hs''
            · exact ⟨("replays-right" : String).data, by rw [String.data_append]⟩
            · simp at hs''
        · rw [if_neg h2] at h
          injection h with h'
          subst h'
          rcases List.mem_cons.mp hs with rfl | hs'
          · exact ⟨("replays" : String).data, by rw [String.data_append]⟩
          · simp at hs'
      · rw [if_neg h1] at h
        injection h with h'
        subst h'
        simp at hs

theorem preparePartAudioIds_shape (pn : String) (b : AudioCfg) (l : List String)
    (h : preparePartAudioIds pn b = .ok l) :
    ∀ s ∈ l, ∃ t, s.data =
      (pyZfill (pyReplace pn "part " "") 2).data ++ '-' ::
        ((pyZfill (pyReplace b.name "audio " "") 2).data ++ '-' :: t) := by
  intro s hs
  have hpa : (partAudioOf pn b).data =
      (pyZfill (pyReplace pn "part " "") 2).data ++ '-' ::
        (pyZfill (pyReplace b.name "audio " "") 2).data := dash_cons_data _ _
  unfold preparePartAudioIds at h
  cases hrc : replayCounterIds (partAudioOf pn b) b with
  | error e =>
    rw [hrc] at h
    exact Except.noConfusion h
  | ok rep =>
    rw [hrc] at h
    injection h with h'
    subst h'
    rcases List.mem_append.mp hs with hrep | hq
    · obtain ⟨t, ht⟩ := replayCounterIds_shape _ b rep hrc s hrep
      refine ⟨t, ?_⟩
      rw [ht, hpa]
      simp [List.append_assoc]
    · rcases List.mem_map.mp hq with ⟨q, _, rfl⟩
      refine ⟨(pyZfill (pyReplace q "question " "") 2).data, ?_⟩
      rw [dash_cons_data, hpa]
      simp [List.append_assoc]

/-! ## dash-separated field lemma -/

theorem dashfree_cancel (u : List Char) :
    ∀ (u' b b' : List Char), '-' ∉ u → '-' ∉ u' →
    u ++ '-' :: b = u' ++ '-' :: b' → u = u' ∧ b = b' := by
  induction u with
  | nil =>
    intro u' b b' _ hu' h
    cases u' with
    | nil => simpa using h
    | cons c' cu' =>
      simp only [List.nil_append, List.cons_append, List.cons.injEq] at h
      have hmem : ('-' : Char) ∈ c' :: cu' := by
        rw [h.1]
        exact List.mem_cons_self _ _
      exact absurd hmem hu'
  | cons c cu ih =>
    intro u' b b' hu hu' h
    cases u' with
    | nil =>
      simp only [List.cons_append, List.nil_append, List.cons.injEq] at h
      have hmem : ('-' : Char) ∈ c :: cu := by
        rw [← h.1]
        exact List.mem_cons_self _ _
      exact absurd hmem hu
    | cons c' cu' =>
      simp only [List.cons_append, List.cons.injEq] at h
      obtain ⟨rfl, h2⟩ := h
      have := ih cu' b b' (fun hm => hu (List.mem_cons_of_mem _ hm))
        (fun hm => hu' (List.mem_cons_of_mem _ hm)) h2
      exact ⟨by rw [this.1], this.2⟩

/-! ## Claim C4 -/

/-- C4: for an audio item declaring a repeat count N greater than zero,
the init-time expansion replaces it by exactly N copies whose names carry
the two-digit zero filled suffixes of indices one to N, each copy keeps the
question sections of the template, the copy names are pairwise distinct,
the template name is gone from the resulting audio list, and the later id
assignment of _prepare_part_audio gives two distinct copies disjoint
question id lists. -/
theorem C4_repeat_expansion (a : AudioCfg) (rs partName : String) (N i j : Nat)
    (base : List Char) (li lj : List String)
    (hr : a.repeatKey = some rs)
    (hN : pyInt rs = .ok (N : Int))
    (hpos : 0 < N)
    (hname : a.name.data = ("audio " : String).data ++ base)
    (hbase : ∀ c ∈ base, c ∉ ("audio " : String).data)
    (hdash : '-' ∉ base)
    (hi : i < N) (hj : j < N) (hij : i ≠ j)
    (hli : preparePartAudioIds partName (expandCopy a i) = .ok li)
    (hlj : preparePartAudioIds partName (expandCopy a j) = .ok lj) :
    expandAudio a = .ok ((List.range N).map (expandCopy a)) ∧
    ((List.range N).map (expandCopy a)).length = N ∧
    a.name ∉ ((List.range N).map (expandCopy a)).map (·.name) ∧
    (∀ b ∈ (List.range N).map (expandCopy a), b.questions = a.questions) ∧
    (((List.range N).map (expandCopy a)).map (·.name)).Nodup ∧
    ∀ s ∈ li, s ∉ lj := by
  have hdashZ : ∀ ri : Nat, '-' ∉ base ++ '_' :: (pyZfill (pyStr (ri + 1)) 2).data := by
    intro ri hm
    rcases List.mem_append.mp hm with hb | hz
    · exact hdash hb
    · rcases List.mem_cons.mp hz with h0 | hz'
      · exact absurd h0.symm (by decide)
      · exact absurd rfl
          (isDigit_ne '-' '-' (pyZfillL_digits _ _ (pyStr_all_digit _) _ hz') (by decide))
  refine ⟨?_, by simp, ?_, ?_, ?_, ?_⟩
  · simp [expandAudio, hr, hN, Int.toNat_natCast]
  · intro hmem
    rw [List.map_map] at hmem
    rcases List.mem_map.mp hmem with ⟨ri, _, heq⟩
    have hd : (expandCopy a ri).name.data = a.name.data := congrArg String.data heq
    rw [expandCopy_name_data] at hd
    have hlen := congrArg List.length hd
    rw [List.length_append, List.length_cons] at hlen
    omega
  · intro b hb
    rcases List.mem_map.mp hb with ⟨ri, _, rfl⟩
    rfl
  · rw [List.map_map]
    refine List.Nodup.map_on ?_ (List.nodup_range N)
    intro x _ y _ hxy
    have hd : (expandCopy a x).name.data = (expandCopy a y).name.data :=
      congrArg String.data hxy
    rw [expandCopy_name_data, expandCopy_name_data] at hd
    have hz := List.append_cancel_left hd
    injection hz with _ hz'
    exact pyZfill_pyStr_inj x y (stringDataExt _ _ hz')
  · intro s hsi hsj
    obtain ⟨ti, hti⟩ := preparePartAudioIds_shape partName (expandCopy a i) li hli s hsi
    obtain ⟨tj, htj⟩ := preparePartAudioIds_shape partName (expandCopy a j) lj hlj s hsj
    rw [audioId_of_copy a base i hname hbase] at hti
    rw [audioId_of_copy a base j hname hbase] at htj
    have hlong : ∀ ri : Nat,
        (pyZfill (⟨base ++ '_' :: (pyZfill (pyStr (ri + 1)) 2).data⟩ : String) 2).data =
          base ++ '_' :: (pyZfill (pyStr (ri + 1)) 2).data := by
      intro ri
      show pyZfillL (base ++ '_' :: (pyZfill (pyStr (ri + 1)) 2).data) 2 = _
      apply pyZfillL_long
      obtain ⟨c, t, hct, _, _⟩ := pyStr_data_cons (ri + 1)
      have h2 : 2 ≤ (pyZfillL (pyStr (ri + 1)).data 2).length := by
        rw [hct]
        exact pyZfillL_cons_len c t
      have h2' : 2 ≤ ((pyZfill (pyStr (ri + 1)) 2).data).length := h2
      rw [List.length_append, List.length_cons]
      omega
    rw [hlong i] at hti
    rw [hlong j] at htj
    have hcomb := hti.symm.trans htj
    have h1 := List.append_cancel_left hcomb
    injection h1 with _ h2
    obtain ⟨hZeq, _⟩ := dashfree_cancel _ _ _ _ (hdashZ i) (hdashZ j) h2
    have h3 := List.append_cancel_left hZeq
    injection h3 with _ hz
    exact hij (pyZfill_pyStr_inj i j (stringDataExt _ _ hz))

/-- Witness for C4 at the concrete audio section with repeat three. -/
theorem C4_repeat_expansion_witness :
    expandAudio c4Audio = .ok ((List.range 3).map (expandCopy c4Audio)) ∧
    ((List.range 3).map (expandCopy c4Audio)).length = 3 ∧
    c4Audio.name ∉ ((List.range 3).map (expandCopy c4Audio)).map (·.name) ∧
    (∀ b ∈ (List.range 3).map (expandCopy c4Audio), b.questions = c4Audio.questions) ∧
    (((List.range 3).map (expandCopy c4Audio)).map (·.name)).Nodup ∧
    ∀ s ∈ ["01-1_01-01"], s ∉ ["01-1_02-01"] :=
  C4_repeat_expansion c4Audio "3" "part 1" 3 0 1 ['1'] ["01-1_01-01"] ["01-1_02-01"]
    rfl (by decide) (by decide) (by decide) (by decide) (by decide)
    (by decide) (by decide) (by decide) (by decide) (by decide)

/-! ## Projection lemmas for the lock and unlock operations -/

theorem dependantLock_answers (s : QState) (d : DepQ) :
    (dependantLock s d).answers = setKV s.answers d.qid "n/a" := by
  unfold dependantLock depChangeAnswer mgrChangeAnswer
  by_cases h : lookupD s.temps d.qid "" = "" <;> simp [h]

theorem dependantLock_disabled (s : QState) (d : DepQ) :
    (dependantLock s d).disabled = setKB s.disabled d.qid true := by
  unfold dependantLock depChangeAnswer mgrChangeAnswer
  by_cases h : lookupD s.temps d.qid "" = "" <;> simp [h]

theorem dependantLock_temps (s : QState) (d : DepQ) :
    (dependantLock s d).temps =
      if lookupD s.temps d.qid "" = "" then
        setKV s.temps d.qid
          (if lookupD s.answers d.qid "" = "n/a" then "" else lookupD s.answers d.qid "")
      else s.temps := by
  unfold dependantLock depChangeAnswer mgrChangeAnswer
  by_cases h : lookupD s.temps d.qid "" = "" <;> simp [h]

theorem dependantUnlock_answers (s : QState) (d : DepQ) :
    (dependantUnlock s d).answers = setKV s.answers d.qid (lookupD s.temps d.qid "") := by
  unfold dependantUnlock depChangeAnswer mgrChangeAnswer
  simp

theorem dependantUnlock_disabled (s : QState) (d : DepQ) :
    (dependantUnlock s d).disabled = setKB s.disabled d.qid false := by
  unfold dependantUnlock depChangeAnswer mgrChangeAnswer
  simp

theorem dependantUnlock_temps (s : QState) (d : DepQ) :
    (dependantUnlock s d).temps = setKV s.temps d.qid "" := by
  unfold dependantUnlock depChangeAnswer mgrChangeAnswer
  simp

/-! ## Claim C5 -/

/-- C5: on a lock event the dependant caches its current answer only when
the cache is empty (a repeated lock keeps the cache), the answer is forced
to the sentinel, and a lock followed by an unlock restores exactly the
pre-lock answer and clears the cache, provided the pre-lock answer was not
itself the sentinel. -/
theorem C5_lock_cache_roundtrip (s : QState) (d : DepQ) :
    (lookupD s.temps d.qid "" ≠ "" → (dependantLock s d).temps = s.temps) ∧
    lookupD (dependantLock s d).answers d.qid "" = "n/a" ∧
    (lookupD s.temps d.qid "" = "" → lookupD s.answers d.qid "" ≠ "n/a" →
      lookupD (dependantUnlock (dependantLock s d) d).answers d.qid "" =
        lookupD s.answers d.qid "" ∧
      lookupD (dependantUnlock (dependantLock s d) d).temps d.qid "" = "") := by
  refine ⟨?_, ?_, ?_⟩
  · intro h
    rw [dependantLock_temps, if_neg h]
  · rw [dependantLock_answers, lookupD_setKV_self]
  · intro h1 h2
    constructor
    · rw [dependantUnlock_answers, lookupD_setKV_self, dependantLock_temps, if_pos h1,
        if_neg h2, lookupD_setKV_self]
    · rw [dependantUnlock_temps, lookupD_setKV_self]

/-- C5 counterexample: when the pre-lock answer is already the sentinel,
the cache stores the empty string instead (dependant_lock normalises the
sentinel), so lock followed by unlock replays the empty string and is not
the identity the claim states. -/
theorem C5_sentinel_not_restored :
    lookupD ((dependantUnlock (dependantLock
        ⟨[("q2", "n/a")], [], []⟩ ⟨"q2", "yes"⟩) ⟨"q2", "yes"⟩)).answers "q2" "" = "" ∧
    ("" : String) ≠ "n/a" ∧
    lookupD (⟨[("q2", "n/a")], [], []⟩ : QState).answers "q2" "" = "n/a" := by
  decide

/-- Witness for C5 at a concrete state holding a non-sentinel answer. -/
theorem C5_lock_cache_roundtrip_witness :
    lookupD ((dependantUnlock (dependantLock
        ⟨[("q2", "maybe")], [], []⟩ ⟨"q2", "yes"⟩) ⟨"q2", "yes"⟩)).answers "q2" "" = "maybe" ∧
    lookupD ((dependantUnlock (dependantLock
        ⟨[("q2", "maybe")], [], []⟩ ⟨"q2", "yes"⟩) ⟨"q2", "yes"⟩)).temps "q2" "" = "" ∧
    (dependantLock ⟨[("q2", "n/a")], [("q2", "kept")], []⟩ ⟨"q2", "yes"⟩).temps =
      [("q2", "kept")] := by
  refine ⟨?_, ?_, ?_⟩
  · exact ((C5_lock_cache_roundtrip ⟨[("q2", "maybe")], [], []⟩ ⟨"q2", "yes"⟩).2.2
      (by decide) (by decide)).1
  · exact ((C5_lock_cache_roundtrip ⟨[("q2", "maybe")], [], []⟩ ⟨"q2", "yes"⟩).2.2
      (by decide) (by decide)).2
  · exact (C5_lock_cache_roundtrip ⟨[("q2", "n/a")], [("q2", "kept")], []⟩ ⟨"q2", "yes"⟩).1
      (by decide)

/-! ## Claim C6 -/

theorem propagateStep_disabled_other (s : QState) (c : Ctrl) (a : String) (d : DepQ)
    (q : String) (hq : q ≠ d.qid) :
    lookupB (propagateStep s c a d).disabled q false = lookupB s.disabled q false := by
  unfold propagateStep
  by_cases hf : unlockFires s c d a = true
  · rw [if_pos hf, dependantUnlock_disabled, lookupB_setKB_other _ _ _ _ _ hq]
  · rw [if_neg hf, dependantLock_disabled, lookupB_setKB_other _ _ _ _ _ hq]

theorem propagateAux_disabled_other (c : Ctrl) (a : String) (q : String) :
    ∀ (l : List DepQ) (s : QState), q ∉ l.map (·.qid) →
    lookupB (propagateAux c a s l).disabled q false = lookupB s.disabled q false := by
  intro l
  induction l with
  | nil => intro s _; rfl
  | cons d rest ih =>
    intro s hq
    simp only [List.map_cons, List.mem_cons] at hq
    push_neg at hq
    show lookupB (propagateAux c a (propagateStep s c a d) rest).disabled q false = _
    rw [ih _ hq.2, propagateStep_disabled_other s c a d q hq.1]

theorem unlockFires_iff (s : QState) (c : Ctrl) (d : DepQ) (a : String) :
    unlockFires s c d a = true ↔
      ((pySplit a ';').any (fun tok => (pySplit d.cond ';').contains tok) = true ∧
        lookupB s.disabled c.qid false = false) := by
  unfold unlockFires
  rw [Bool.and_eq_true, Bool.not_eq_true']

theorem propagateAux_dep_disabled (c : Ctrl) (a : String) (d : DepQ) :
    ∀ (l : List DepQ) (s : QState), d ∈ l → (l.map (·.qid)).Nodup →
      c.qid ∉ l.map (·.qid) →
    (lookupB (propagateAux c a s l).disabled d.qid false = false ↔
      ((pySplit a ';').any (fun tok => (pySplit d.cond ';').contains tok) = true ∧
        lookupB s.disabled c.qid false = false)) := by
  intro l
  induction l with
  | nil =>
    intro s h
    simp at h
  | cons d₀ rest ih =>
    intro s hmem hnd hc
    simp only [List.map_cons, List.nodup_cons] at hnd
    simp only [List.map_cons, List.mem_cons] at hc
    push_neg at hc
    rcases List.mem_cons.mp hmem with rfl | hmem'
    · show lookupB (propagateAux c a (propagateStep s c a d) rest).disabled d.qid false
        = false ↔ _
      rw [propagateAux_disabled_other c a d.qid rest _ hnd.1]
      unfold propagateStep
      by_cases hf : unlockFires s c d a = true
      · rw [if_pos hf, dependantUnlock_disabled, lookupB_setKB_self]
        simp only [true_iff]
        exact (unlockFires_iff s c d a).mp hf
      · rw [if_neg hf, dependantLock_disabled, lookupB_setKB_self]
        constructor
        · intro h
          exact absurd h (by simp)
        · intro h
          exact absurd ((unlockFires_iff s c d a).mpr h) hf
    · show lookupB (propagateAux c a (propagateStep s c a d₀) rest).disabled d.qid false
        = false ↔ _
      rw [ih (propagateStep s c a d₀) hmem' hnd.2 hc.2,
        propagateStep_disabled_other s c a d₀ c.qid hc.1]

/-- C6: after a controller's change_answer with the new value a, a
registered dependant ends up enabled (Unlocked) iff the semicolon-token
sets of the new answer and of the dependant's unlock condition intersect
and the controller itself was not disabled; under every other condition
the dependant ends up (or stays) disabled. -/
theorem C6_unlock_iff (s : QState) (c : Ctrl) (a : String) (d : DepQ)
    (hd : d ∈ c.deps) (hnd : (c.deps.map (·.qid)).Nodup)
    (hc : c.qid ∉ c.deps.map (·.qid)) :
    lookupB (ctrlChangeAnswer s c a).disabled d.qid false = false ↔
      ((pySplit a ';').any (fun tok => (pySplit d.cond ';').contains tok) = true ∧
        lookupB s.disabled c.qid false = false) := by
  show lookupB (propagate s c a).disabled d.qid false = false ↔ _
  exact propagateAux_dep_disabled c a d c.deps s hd hnd hc

/-- Witness for C6: a controller with one dependant, changed to an answer
whose token set meets the condition, and to one that does not. -/
theorem C6_unlock_iff_witness :
    (lookupB (ctrlChangeAnswer ⟨[("q1", ""), ("q2", "")], [], []⟩
        ⟨"q1", [⟨"q2", "yes;maybe"⟩]⟩ "no;maybe").disabled "q2" false = false ↔
      (True ∧ True)) ∧
    (lookupB (ctrlChangeAnswer ⟨[("q1", ""), ("q2", "")], [], []⟩
        ⟨"q1", [⟨"q2", "yes;maybe"⟩]⟩ "no").disabled "q2" false = false ↔
      (False ∧ True)) := by
  constructor
  · have h := C6_unlock_iff ⟨[("q1", ""), ("q2", "")], [], []⟩
      ⟨"q1", [⟨"q2", "yes;maybe"⟩]⟩ "no;maybe" ⟨"q2", "yes;maybe"⟩
      (by decide) (by decide) (by decide)
    rw [h]
    simp only [iff_iff_implies_and_implies]
    refine ⟨fun _ => ⟨trivial, trivial⟩, fun _ => ⟨by decide, by decide⟩⟩
  · have h := C6_unlock_iff ⟨[("q1", ""), ("q2", "")], [], []⟩
      ⟨"q1", [⟨"q2", "yes;maybe"⟩]⟩ "no" ⟨"q2", "yes;maybe"⟩
      (by decide) (by decide) (by decide)
    rw [h]
    constructor
    · rintro ⟨h1, _⟩
      exact absurd h1 (by decide)
    · rintro ⟨h1, _⟩
      exact h1.elim

/-! ## Claim C7 -/

theorem getState_foldl_all (l : List (String × String)) (b : Bool) :
    l.foldl (fun t p => t && p.2 != "") b = (b && l.all (fun p => p.2 != "")) := by
  induction l generalizing b with
  | nil => simp
  | cons p rest ih => simp [ih, Bool.and_assoc]

theorem getState_eq_all (m : MgrState) :
    getState m = m.answers.all (fun p => p.2 != "") := by
  rw [getState, getState_foldl_all]
  simp

theorem getState_true_iff (m : MgrState) :
    getState m = true ↔ ∀ p ∈ m.answers, p.2 ≠ "" := by
  rw [getState_eq_all, List.all_eq_true]
  constructor
  · intro h p hp
    exact bne_iff_ne.mp (h p hp)
  · intro h p hp
    exact bne_iff_ne.mpr (h p hp)

/-- C7: the completion predicate is true iff every entry of the answers
dict is non-empty, hence false while any entry is the empty string; it is
invariant under any permutation of the entries (answer order does not
matter), depends only on the answers dict and never on the manager's
disabled flag, and becomes true when the one remaining empty entry is
overwritten with a non-empty value (the sentinel counts as answered by the
iff, since it is non-empty). -/
theorem C7_getState (m m' : MgrState) (qid v : String) :
    (getState m = true ↔ ∀ p ∈ m.answers, p.2 ≠ "") ∧
    ((∃ p ∈ m.answers, p.2 = "") → getState m = false) ∧
    (m.answers.Perm m'.answers → getState m = getState m') ∧
    (m.answers = m'.answers → getState m = getState m') ∧
    ((m.answers.map (·.1)).Nodup → v ≠ "" →
      (∀ p ∈ m.answers, p.1 ≠ qid → p.2 ≠ "") →
      getState (mgrSetAnswer m qid v) = true) := by
  refine ⟨getState_true_iff m, ?_, ?_, ?_, ?_⟩
  · rintro ⟨p, hp, he⟩
    cases hg : getState m with
    | false => rfl
    | true =>
      exact absurd he ((getState_true_iff m).mp hg p hp)
  · intro hperm
    cases hg : getState m with
    | true =>
      symm
      apply (getState_true_iff m').mpr
      intro p hp
      exact (getState_true_iff m).mp hg p (hperm.mem_iff.mpr hp)
    | false =>
      cases hg' : getState m' with
      | false => rfl
      | true =>
        have hm := (getState_true_iff m).mpr
          (fun p hp => (getState_true_iff m').mp hg' p (hperm.mem_iff.mp hp))
        rw [hg] at hm
        exact absurd hm (by decide)
  · intro he
    rw [getState_eq_all, getState_eq_all, he]
  · intro hnd hv hrest
    apply (getState_true_iff (mgrSetAnswer m qid v)).mpr
    intro p hp
    rcases mem_setKV_of_nodup m.answers qid v hnd p hp with rfl | ⟨hpm, hpk⟩
    · exact hv
    · exact hrest p hpm hpk

/-- Witness for C7: a full dict with the sentinel counts as complete, and
filling the last empty entry completes the screen. -/
theorem C7_getState_witness :
    getState ⟨[("q1", "x"), ("q2", "n/a")], false⟩ = true ∧
    getState (mgrSetAnswer ⟨[("q1", "x"), ("q2", "")], true⟩ "q2" "y") = true :=
  ⟨(C7_getState ⟨[("q1", "x"), ("q2", "n/a")], false⟩ ⟨[], false⟩ "q" "v").1.mpr (by decide),
   (C7_getState ⟨[("q1", "x"), ("q2", "")], true⟩ ⟨[], false⟩ "q2" "y").2.2.2.2
     (by decide) (by decide) (by decide)⟩

/-! ## Claim C8 -/

theorem propagateStep_answers_other (s : QState) (c : Ctrl) (a : String) (d : DepQ)
    (q : String) (hq : q ≠ d.qid) :
    lookupD (propagateStep s c a d).answers q "" = lookupD s.answers q "" := by
  unfold propagateStep
  by_cases hf : unlockFires s c d a = true
  · rw [if_pos hf, dependantUnlock_answers, lookupD_setKV_other _ _ _ _ _ hq]
  · rw [if_neg hf, dependantLock_answers, lookupD_setKV_other _ _ _ _ _ hq]

theorem propagationStatesAux_answers (c : Ctrl) (a : String) (q : String) :
    ∀ (l : List DepQ) (s : QState), q ∉ l.map (·.qid) →
    ∀ t ∈ propagationStatesAux c a s l, lookupD t.answers q "" = lookupD s.answers q "" := by
  intro l
  induction l with
  | nil => intro s _ t ht; simp [propagationStatesAux] at ht
  | cons d rest ih =>
    intro s hq t ht
    simp only [List.map_cons, List.mem_cons] at hq
    push_neg at hq
    rcases List.mem_cons.mp ht with rfl | ht'
    · rfl
    · rw [ih (propagateStep s c a d) hq.2 t ht',
        propagateStep_answers_other s c a d q hq.1]

theorem propagateStep_mem_keys (s : QState) (c : Ctrl) (a : String) (d : DepQ)
    (q : String) (h : q ∈ s.answers.map (·.1)) :
    q ∈ (propagateStep s c a d).answers.map (·.1) := by
  unfold propagateStep
  by_cases hf : unlockFires s c d a = true
  · rw [if_pos hf, dependantUnlock_answers]
    exact setKV_mem_keys _ _ _ _ h
  · rw [if_neg hf, dependantLock_answers]
    exact setKV_mem_keys _ _ _ _ h

theorem propagateStep_mgr_comm (s : QState) (c : Ctrl) (a : String) (d : DepQ)
    (hne : c.qid ≠ d.qid) (hmem : c.qid ∈ s.answers.map (·.1)) :
    propagateStep (mgrChangeAnswer s c.qid a) c a d =
      mgrChangeAnswer (propagateStep s c a d) c.qid a := by
  obtain ⟨ans, tmp, dis⟩ := s
  have hfires : unlockFires (mgrChangeAnswer ⟨ans, tmp, dis⟩ c.qid a) c d a =
      unlockFires ⟨ans, tmp, dis⟩ c d a := rfl
  unfold propagateStep
  rw [hfires]
  by_cases hf : unlockFires ⟨ans, tmp, dis⟩ c d a = true
  · rw [if_pos hf, if_pos hf]
    unfold dependantUnlock depChangeAnswer mgrChangeAnswer
    simp only [QState.mk.injEq]
    exact ⟨setKV_comm_of_mem ans c.qid d.qid a _ hne hmem, trivial, trivial⟩
  · rw [if_neg hf, if_neg hf]
    unfold dependantLock depChangeAnswer mgrChangeAnswer
    simp only
    rw [lookupD_setKV_other ans c.qid d.qid a "" (Ne.symm hne)]
    by_cases ht : lookupD tmp d.qid "" = ""
    · simp only [ht, if_true, QState.mk.injEq]
      exact ⟨setKV_comm_of_mem ans c.qid d.qid a _ hne hmem, trivial, trivial⟩
    · simp only [ht, if_false, QState.mk.injEq]
      exact ⟨setKV_comm_of_mem ans c.qid d.qid a _ hne hmem, trivial, trivial⟩

theorem propagateAux_mgr_comm (c : Ctrl) (a : String) :
    ∀ (l : List DepQ) (s : QState), c.qid ∉ l.map (·.qid) →
      c.qid ∈ s.answers.map (·.1) →
    propagateAux c a (mgrChangeAnswer s c.qid a) l =
      mgrChangeAnswer (propagateAux c a s l) c.qid a := by
  intro l
  induction l with
  | nil => intro s _ _; rfl
  | cons d rest ih =>
    intro s hc hmem
    simp only [List.map_cons, List.mem_cons] at hc
    push_neg at hc
    show propagateAux c a (propagateStep (mgrChangeAnswer s c.qid a) c a d) rest = _
    rw [propagateStep_mgr_comm s c a d hc.1 hmem,
      ih (propagateStep s c a d) hc.2 (propagateStep_mem_keys s c a d c.qid hmem)]
    rfl

/-- C8 counterexample: during the dependants loop the answers dict still
holds the controller's old value (the dict entry is only overwritten after
the loop), while the claim says the new value is already visible there
during lock and unlock propagation. -/
theorem C8_old_value_visible_during_propagation :
    (propagationStates c8State c8Ctrl "no").map (fun t => lookupD t.answers "q1" "") =
      ["old"] ∧
    ("old" : String) ≠ "no" ∧
    lookupD (ctrlChangeAnswer c8State c8Ctrl "no").answers "q1" "" = "no" := by
  decide

/-- C8 amended: Question.change_answer runs the dependency reaction first,
with the new value passed as an argument while the answers dict still shows
the controller's old value, and overwrites the dict entry only afterwards,
before returning; when no dependant is the controller itself and the
controller key is present, the final state nevertheless equals the one the
claimed overwrite-then-react order would produce, so the answer change and
its side effects are still observed together. -/
theorem C8_propagation_then_write (s : QState) (c : Ctrl) (a : String)
    (hc : c.qid ∉ c.deps.map (·.qid))
    (hmem : c.qid ∈ s.answers.map (·.1)) :
    (∀ t ∈ propagationStates s c a,
      lookupD t.answers c.qid "" = lookupD s.answers c.qid "") ∧
    lookupD (ctrlChangeAnswer s c a).answers c.qid "" = a ∧
    ctrlChangeAnswer s c a = ctrlChangeAnswerSpecOrder s c a := by
  refine ⟨?_, ?_, ?_⟩
  · intro t ht
    exact propagationStatesAux_answers c a c.qid c.deps s hc t ht
  · show lookupD (mgrChangeAnswer (propagate s c a) c.qid a).answers c.qid "" = a
    rw [mgrChangeAnswer]
    exact lookupD_setKV_self _ _ _ _
  · show mgrChangeAnswer (propagate s c a) c.qid a = propagate (mgrChangeAnswer s c.qid a) c a
    exact (propagateAux_mgr_comm c a c.deps s hc hmem).symm

/-- Witness for C8 at the concrete controller state. -/
theorem C8_propagation_then_write_witness :
    (∀ t ∈ propagationStates c8State c8Ctrl "no",
      lookupD t.answers "q1" "" = lookupD c8State.answers "q1" "") ∧
    lookupD (ctrlChangeAnswer c8State c8Ctrl "no").answers "q1" "" = "no" ∧
    ctrlChangeAnswer c8State c8Ctrl "no" = ctrlChangeAnswerSpecOrder c8State c8Ctrl "no" :=
  C8_propagation_then_write c8State c8Ctrl "no" (by decide) (by decide)

/-! ## Claim C9 -/

theorem pyStr_data_two (n : Nat) (h1 : 10 ≤ n) (h2 : n < 100) :
    (pyStr n).data = [digitChar ((n / 10) % 10), digitChar (n % 10)] := by
  show pyStrAux (n + 1) n [] = _
  rw [pyStrAux_succ_ge n n [] (by omega)]
  obtain ⟨m, rfl⟩ : ∃ m, n = m + 1 := ⟨n - 1, by omega⟩
  rw [pyStrAux_succ_lt m ((m + 1) / 10) _ (by omega)]

theorem pz2_two_digits (n : Nat) (h : n ≤ 99) :
    ∃ c₁ c₂, (pyZfill (pyStr n) 2).data = [c₁, c₂] ∧
      c₁.isDigit = true ∧ c₂.isDigit = true := by
  by_cases hn : n < 10
  · have hdata : (pyStr n).data = [digitChar (n % 10)] := pyStrAux_succ_lt n n [] hn
    refine ⟨'0', digitChar (n % 10), ?_, by decide, digitChar_isDigit _ (by omega)⟩
    show pyZfillL (pyStr n).data 2 = _
    rw [hdata, pyZfillL_single_digit _ (digitChar_isDigit _ (by omega))]
  · have hdata := pyStr_data_two n (by omega) (by omega)
    refine ⟨digitChar ((n / 10) % 10), digitChar (n % 10), ?_,
      digitChar_isDigit _ (by omega), digitChar_isDigit _ (by omega)⟩
    show pyZfillL (pyStr n).data 2 = _
    rw [hdata, pyZfillL_long _ _ (by simp)]

theorem strftimeStamp_matches (t : ClockStamp) (hmo : t.month ≤ 99) (hd : t.day ≤ 99)
    (hh : t.hour ≤ 99) (hmi : t.minute ≤ 99) :
    matchesStampPattern (strftimeStamp t) = true := by
  obtain ⟨a1, a2, ha, ha1, ha2⟩ := pz2_two_digits (t.year % 100) (by omega)
  obtain ⟨b1, b2, hb, hb1, hb2⟩ := pz2_two_digits t.month hmo
  obtain ⟨c1, c2, hc, hc1, hc2⟩ := pz2_two_digits t.day hd
  obtain ⟨e1, e2, he, he1, he2⟩ := pz2_two_digits t.hour hh
  obtain ⟨f1, f2, hf, hf1, hf2⟩ := pz2_two_digits t.minute hmi
  have hdata : (strftimeStamp t).data = [a1, a2, b1, b2, c1, c2, '-', e1, e2, f1, f2] := by
    unfold strftimeStamp
    rw [String.data_append, String.data_append, String.data_append, String.data_append,
      String.data_append, ha, hb, hc, he, hf]
    rfl
  unfold matchesStampPattern
  rw [hdata]
  simp [ha1, ha2, hb1, hb2, hc1, hc2, he1, he2, hf1, hf2]

/-- C9: in auto mode set_pid ignores the passed value entirely and derives
the participant id from the clock in the fixed six-digit dash four-digit
pattern; in input mode it takes exactly the given value; in both modes the
output path of the answer store is the responses directory file named
after the resulting id; any other mode raises SyntaxError. -/
theorem C9_set_pid (mode : String) (t : ClockStamp) (st : AnswersState) (p q : String)
    (hmo : t.month ≤ 99) (hd : t.day ≤ 99) (hh : t.hour ≤ 99) (hmi : t.minute ≤ 99) :
    managerSetPid "auto" t st p = managerSetPid "auto" t st q ∧
    (∀ st', managerSetPid "auto" t st p = .ok st' →
      st'.pid = some (strftimeStamp t) ∧
      matchesStampPattern (strftimeStamp t) = true ∧
      st'.outPath = some (st.path ++ "/responses/" ++ strftimeStamp t ++ ".csv")) ∧
    (∀ st', managerSetPid "input" t st p = .ok st' →
      st'.pid = some p ∧ st'.outPath = some (st.path ++ "/responses/" ++ p ++ ".csv")) ∧
    (mode ≠ "auto" → mode ≠ "input" → (managerSetPid mode t st p).isOk = false) := by
  refine ⟨rfl, ?_, ?_, ?_⟩
  · intro st' h
    rw [show managerSetPid "auto" t st p = .ok (answersSetPid st (strftimeStamp t)) from rfl]
      at h
    injection h with h'
    subst h'
    exact ⟨rfl, strftimeStamp_matches t hmo hd hh hmi, rfl⟩
  · intro st' h
    rw [show managerSetPid "input" t st p = .ok (answersSetPid st p) from rfl] at h
    injection h with h'
    subst h'
    exact ⟨rfl, rfl⟩
  · intro h1 h2
    unfold managerSetPid
    rw [if_neg h1, if_neg h2]
    rfl

/-- Witness for C9 at a concrete clock and answer store. -/
theorem C9_set_pid_witness :
    managerSetPid "auto" ⟨2026, 3, 7, 15, 4⟩ ⟨"exp", none, none⟩ "ignored" =
      managerSetPid "auto" ⟨2026, 3, 7, 15, 4⟩ ⟨"exp", none, none⟩ "other" ∧
    (∀ st', managerSetPid "auto" ⟨2026, 3, 7, 15, 4⟩ ⟨"exp", none, none⟩ "ignored" = .ok st' →
      st'.pid = some (strftimeStamp ⟨2026, 3, 7, 15, 4⟩) ∧
      matchesStampPattern (strftimeStamp ⟨2026, 3, 7, 15, 4⟩) = true ∧
      st'.outPath = some ("exp" ++ "/responses/" ++ strftimeStamp ⟨2026, 3, 7, 15, 4⟩ ++ ".csv")) ∧
    (∀ st', managerSetPid "input" ⟨2026, 3, 7, 15, 4⟩ ⟨"exp", none, none⟩ "ignored" = .ok st' →
      st'.pid = some "ignored" ∧
      st'.outPath = some ("exp" ++ "/responses/" ++ "ignored" ++ ".csv")) := by
  have h := C9_set_pid "pick" ⟨2026, 3, 7, 15, 4⟩ ⟨"exp", none, none⟩ "ignored" "other"
    (by decide) (by decide) (by decide) (by decide)
  exact ⟨h.1, h.2.1, h.2.2.1⟩

/-! ## Claim C10 -/

theorem checkManualScreens_member_error (pn : String) :
    ∀ (qs : List QuestionCfg) (q : QuestionCfg), q ∈ qs →
      (checkManualScreen pn q).isOk = false →
      (checkManualScreens pn qs).isOk = false := by
  intro qs
  induction qs with
  | nil => intro q hq; simp at hq
  | cons q₀ rest ih =>
    intro q hq herr
    rcases List.mem_cons.mp hq with rfl | hq'
    · show (checkManualScreens pn (q :: rest)).isOk = false
      unfold checkManualScreens
      cases hc : checkManualScreen pn q with
      | error e => rfl
      | ok u =>
        rw [hc] at herr
        exact absurd herr (by simp [Except.isOk, Except.toBool])
    · unfold checkManualScreens
      cases hc : checkManualScreen pn q₀ with
      | error e => rfl
      | ok u =>
        cases u
        exact ih q hq' herr

theorem checkManualScreens_all_ok (pn : String) :
    ∀ (qs : List QuestionCfg), (∀ q ∈ qs, checkManualScreen pn q = .ok ()) →
      checkManualScreens pn qs = .ok () := by
  intro qs
  induction qs with
  | nil => intro _; rfl
  | cons q₀ rest ih =>
    intro h
    unfold checkManualScreens
    rw [h q₀ (List.mem_cons_self _ _)]
    exact ih (fun q hq => h q (List.mem_cons_of_mem _ hq))

/-- C10: with manual split enabled, part questionnaire verification raises
SyntaxError as soon as a question's manual screen value is a numeric
string (the check in _verify_part is inverted and rejects numbers with a
message saying the value is not a number), accepts a question whose value
is present but non-numeric, and therefore accepts the whole questionnaire
exactly when every manual screen value is present and non-numeric — so
indices all written as numbers can never pass verification. -/
theorem C10_manual_screen_check (pn key v : String) (qs : List QuestionCfg)
    (q : QuestionCfg) (hb : asBool key = .ok true) :
    (q ∈ qs → q.manualScreen = some v → pyIsNumeric v = true →
      (verifyPartQuestionnaire pn (some ⟨qs, some key⟩)).isOk = false) ∧
    (q.manualScreen = some v → pyIsNumeric v = false → checkManualScreen pn q = .ok ()) ∧
    ((∀ q' ∈ qs, ∃ v', q'.manualScreen = some v' ∧ pyIsNumeric v' = false) →
      verifyPartQuestionnaire pn (some ⟨qs, some key⟩) = .ok (some ⟨qs, true⟩)) := by
  refine ⟨?_, ?_, ?_⟩
  · intro hq hms hnum
    have hcheck : (checkManualScreen pn q).isOk = false := by
      simp [checkManualScreen, hms, hnum, Except.isOk, Except.toBool]
    have hlist := checkManualScreens_member_error pn qs q hq hcheck
    cases hms' : checkManualScreens pn qs with
    | error e =>
      simp only [verifyPartQuestionnaire, hb, hms', Except.isOk, Except.toBool]
      rfl
    | ok u =>
      rw [hms'] at hlist
      exact absurd hlist (by simp [Except.isOk, Except.toBool])
  · intro hms hnum
    simp [checkManualScreen, hms, hnum]
  · intro hall
    have hok : checkManualScreens pn qs = .ok () := by
      apply checkManualScreens_all_ok
      intro q' hq'
      obtain ⟨v', hv', hnum'⟩ := hall q' hq'
      simp [checkManualScreen, hv', hnum']
    simp only [verifyPartQuestionnaire, hb, hok]
    rfl

/-- Witness for C10: a numeric manual screen value is rejected, a
non-numeric one is accepted, and an all-non-numeric questionnaire passes. -/
theorem C10_manual_screen_check_witness :
    (verifyPartQuestionnaire "part 1"
      (some ⟨[⟨"question 1", some "3"⟩], some "yes"⟩)).isOk = false ∧
    checkManualScreen "part 1" ⟨"question 2", some "-1"⟩ = .ok () ∧
    verifyPartQuestionnaire "part 1"
      (some ⟨[⟨"question 1", some "-1"⟩, ⟨"question 2", some "-2"⟩], some "yes"⟩) =
      .ok (some ⟨[⟨"question 1", some "-1"⟩, ⟨"question 2", some "-2"⟩], true⟩) := by
  refine ⟨?_, ?_, ?_⟩
  · exact (C10_manual_screen_check "part 1" "yes" "3" [⟨"question 1", some "3"⟩]
      ⟨"question 1", some "3"⟩ (by decide)).1 (by decide) rfl (by decide)
  · exact (C10_manual_screen_check "part 1" "yes" "-1" [] ⟨"question 2", some "-1"⟩
      (by decide)).2.1 rfl (by decide)
  · exact (C10_manual_screen_check "part 1" "yes" "-1"
      [⟨"question 1", some "-1"⟩, ⟨"question 2", some "-2"⟩] ⟨"question 1", some "-1"⟩
      (by decide)).2.2 (by decide)

/-! ## Claims C1, C2, C3: concrete configurations -/

/-- C1: the compiled screen graph has dangling references on every config
with a nonempty main questionnaire: the welcome screen's next and the end
screen's previous name the screen main-questionnaire 1 (with a space, as
written by file_system.py and GUI/init), while questionnaire_setup names
the only questionnaire screen main-questionnaire-1 (with a dash), so the
unique-resolution invariant of the claim fails although verification
accepted the config. -/
theorem C1_dangling_reference :
    (compile (fun _ => true) c1Config).isOk = true ∧
    (compiledScreens (fun _ => true) c1Config).any
      (fun s => s.name == "welcome" && s.next == "main-questionnaire 1") = true ∧
    (screenNames (compiledScreens (fun _ => true) c1Config)).contains "main-questionnaire-1"
      = true ∧
    (screenNames (compiledScreens (fun _ => true) c1Config)).contains "main-questionnaire 1"
      = false ∧
    danglingRefs (compiledScreens (fun _ => true) c1Config) =
      ["main-questionnaire 1", "main-questionnaire 1", "main-questionnaire 1"] := by
  decide

/-- C2 counterexample: compilation raises no error at all on a manual split
that assigns eight questions to one screen index; the claim says it fails
with a ConfigError before any screen is constructed. -/
theorem C2_no_error_on_overfull_manual_screen :
    (compile (fun _ => true) c2Config).isOk = true := by decide

/-- C2 amended: the overfull manual assignment is accepted; the single
generated questionnaire screen holds all eight questions and receives no
filler widget, because the filler loop runs 7 - len(questions) times which
is empty below zero. -/
theorem C2_overfull_screen_contents :
    (compile (fun _ => true) c2Config).isOk = true ∧
    (compiledScreens (fun _ => true) c2Config).filter
        (fun s => s.name == "main-questionnaire-1") =
      [{ name := "main-questionnaire-1", prev := "welcome", next := "part 1-intro",
         questions := ["question 1", "question 2", "question 3", "question 4",
                       "question 5", "question 6", "question 7", "question 8"],
         fillers := 0 }] := by
  decide

/-- C3 counterexample: for the part with two audio items and interval one,
the emission sequence of _prepare_part is not the five-screen sequence the
claim states. -/
theorem C3_sequence_counterexample :
    emissionOf (fun _ => true) c3Config "part 1" ≠
      ["part 1-intro", "part 1-audio 1", "part 1-break 1", "part 1-audio 2",
       "part 1-questionnaire 1"] := by
  decide

/-- C3 amended: the part emits intro, audio one, a break (since one audio
has played, (0+1) mod 1 = 0, and it is not the last), audio two with no
break after it (last item), the questionnaire, and then one more trailing
break, because _prepare_part appends a final break whenever a breaks
section is configured with a non-negative interval. -/
theorem C3_sequence_with_trailing_break :
    (compile (fun _ => true) c3Config).isOk = true ∧
    emissionOf (fun _ => true) c3Config "part 1" =
      ["part 1-intro", "part 1-audio 1", "part 1-break 1", "part 1-audio 2",
       "part 1-questionnaire 1", "part 1-break 2"] := by
  decide

end Palila
